import Mathlib

/-!
Verification of the build pipeline of the `react-static-magic` repository:
a shallow embedding, in Lean 4, of the hand-rolled ZIP reader, the
dependency-version resolution, the import resolver, the module bundler,
the monorepo package ordering and the Tailwind-style utility CSS
generator of the edge function, together with theorems settling the
specification's claims about them.

Conventions of the embedding:
* JavaScript strings are Lean `String`s; byte buffers are `List Nat`
  (one `Nat` per byte, little-endian multi-byte reads made explicit).
* `String.prototype.startsWith` / `endsWith` are modelled on the
  character list (`jsStartsWith` / `jsEndsWith`), which agrees with the
  JS semantics and evaluates inside `decide`.
* `Record<string, string>` objects are association lists read through
  first-match lookup; JS truthiness of a looked-up string (the empty
  string is falsy) is made explicit by `truthyLookup`.
* A JS `Map` is an insertion-ordered association list; `Map.set` on an
  existing key overwrites the value in place (`mapSet`).
* Fallible operations (a `DataView` read past the end of the buffer
  raises `RangeError`) are modelled with `Option` / `Except`.
* Unbounded JS recursion is modelled with an explicit fuel argument;
  fuel-irrelevance theorems justify the chosen fuel.
-/

namespace BuildPipeline

set_option maxRecDepth 40000

/-! ## Small JavaScript string/collection helpers -/

/-- `s.startsWith(p)`. -/
def jsStartsWith (s p : String) : Bool := p.data.isPrefixOf s.data

/-- `s.endsWith(p)`. -/
def jsEndsWith (s p : String) : Bool := p.data.isSuffixOf s.data

/-- First-match association-list lookup combined with JS truthiness:
`lookup(k)` when the stored string is non-empty, else `none`
(models `obj[k]` used in a boolean context, where `""` is falsy). -/
def truthyLookup (l : List (String × String)) (k : String) : Option String :=
  match List.lookup k l with
  | some v => if v = "" then none else some v
  | none => none

/-- The range-operator characters of the version-cleaning regex. -/
def isRangeOpChar (c : Char) : Bool :=
  c == '^' || c == '~' || c == '>' || c == '<' || c == '='

/-- `s.replace(/^[\^~><=]+/, "")`: drop every leading range-operator
character. -/
def stripRangeOps (s : String) : String :=
  String.mk (s.data.dropWhile isRangeOpChar)

/-- `s.replace(/^workspace:\*?/, "")`: drop a leading `workspace:*` or
`workspace:` (the regex consumes the `*` greedily when present). -/
def stripWorkspaceTag (s : String) : String :=
  if jsStartsWith s "workspace:*" then String.mk (s.data.drop 11)
  else if jsStartsWith s "workspace:" then String.mk (s.data.drop 10)
  else s

/-- Does the string begin with one of the range operators `^ ~ > < =`? -/
def beginsWithRangeOp (s : String) : Bool :=
  match s.data with
  | [] => false
  | c :: _ => isRangeOpChar c

/-! ## Project manifests and dependency-version resolution

Source: `PackageJson` interface and `getDependencyVersion` of the
self-contained bundler variant, and the `getDependencyVersion` of the
esbuild variant (`supabase/functions/build-react/index.ts`).
Only the fields the embedded functions read are modelled. -/

structure PackageJson where
  name : Option String
  dependencies : List (String × String)
  devDependencies : List (String × String)
deriving DecidableEq

/-- `packageJson?.dependencies?.[dep] || packageJson?.devDependencies?.[dep]`
followed by the `if (version)` truthiness test: the first truthy hit,
else `none`. -/
def manifestVersionLookup (packageJson : Option PackageJson) (dep : String) :
    Option String :=
  match packageJson with
  | none => none
  | some p =>
    match truthyLookup p.dependencies dep with
    | some v => some v
    | none => truthyLookup p.devDependencies dep

/-- `getDependencyVersion` of the self-contained bundler variant:

```
function getDependencyVersion(dep, packageJson, allDeps?) {
  if (allDeps && allDeps[dep]) {
    return allDeps[dep].replace(/^[\^~><=]+/, "").replace(/^workspace:\*?/, "");
  }
  const version = packageJson?.dependencies?.[dep] || packageJson?.devDependencies?.[dep];
  if (version) {
    if (version.startsWith("workspace:")) return "latest";
    return version.replace(/^[\^~><=]+/, "");
  }
  return "latest";
}
``` -/
def getDependencyVersion (dep : String) (packageJson : Option PackageJson)
    (allDeps : Option (List (String × String))) : String :=
  match allDeps.bind (fun ad => truthyLookup ad dep) with
  | some v => stripWorkspaceTag (stripRangeOps v)
  | none =>
    match manifestVersionLookup packageJson dep with
    | some version =>
      if jsStartsWith version "workspace:" then "latest"
      else stripRangeOps version
    | none => "latest"

/-- `getDependencyVersion` of the esbuild variant (`index.ts`), which has
no `allDeps` parameter and no `workspace:` handling. -/
def getDependencyVersionEsbuild (dep : String)
    (packageJson : Option PackageJson) : String :=
  match manifestVersionLookup packageJson dep with
  | some version => stripRangeOps version
  | none => "latest"

/-! ## Theorems for claims C1 and C2 -/

lemma dropWhile_head_not {α : Type} (p : α → Bool) (l : List α) (c : α)
    (cs : List α) (h : l.dropWhile p = c :: cs) : p c = false := by
  induction l with
  | nil => simp at h
  | cons a l ih =>
    by_cases ha : p a = true
    · rw [List.dropWhile_cons_of_pos ha] at h
      exact ih h
    · rw [List.dropWhile_cons_of_neg (by simp [ha])] at h
      cases h
      simpa using ha

lemma beginsWithRangeOp_stripRangeOps (s : String) :
    beginsWithRangeOp (stripRangeOps s) = false := by
  unfold stripRangeOps beginsWithRangeOp
  cases h : s.data.dropWhile isRangeOpChar with
  | nil => rfl
  | cons c cs => exact dropWhile_head_not isRangeOpChar s.data c cs h

/-- If the specifier does not carry a `workspace:` prefix then
`stripWorkspaceTag` leaves it unchanged. -/
lemma stripWorkspaceTag_of_not_workspace (s : String)
    (h : jsStartsWith s "workspace:" = false) : stripWorkspaceTag s = s := by
  have h' : jsStartsWith s "workspace:*" = false := by
    by_contra hc
    simp only [Bool.not_eq_false] at hc
    unfold jsStartsWith at hc h
    have : "workspace:".data <+: s.data := by
      rcases List.isPrefixOf_iff_prefix.mp hc with ⟨t, ht⟩
      exact ⟨'*' :: t, by simpa using ht⟩
    rw [List.isPrefixOf_iff_prefix.mpr this] at h
    cases h
  unfold stripWorkspaceTag
  rw [h, h']
  simp

lemma jsStartsWith_workspace_stripRangeOps (v : String)
    (hws : jsStartsWith v "workspace:" = true) : stripRangeOps v = v := by
  unfold jsStartsWith at hws
  rcases List.isPrefixOf_iff_prefix.mp hws with ⟨t, ht⟩
  unfold stripRangeOps
  cases hv : v.data with
  | nil => rw [← ht] at hv; simp at hv
  | cons c cs =>
    rw [hv] at ht
    have hcw : c = 'w' := by
      have h2 : "workspace:".data ++ t = c :: cs := ht
      have h3 := congrArg List.head? h2
      simpa using h3.symm
    have hop : isRangeOpChar c = false := by rw [hcw]; decide
    rw [List.dropWhile_cons_of_neg (by simp [hop])]
    cases v
    simp_all

/-- C1 counterexample: a `workspace:*` specifier reaching
`getDependencyVersion` through the flattened dependency table
(`allDeps`) does **not** resolve to `"latest"` (it resolves to `""`:
the `workspace:*` prefix is stripped instead). -/
theorem getDependencyVersion_workspace_allDeps_not_latest :
    getDependencyVersion "ui" none (some [("ui", "workspace:*")]) = "" ∧
    getDependencyVersion "ui" none (some [("ui", "workspace:*")]) ≠ "latest" := by
  constructor <;> decide

/-- C1, amended: a `workspace:` specifier resolves to `"latest"` only on
the manifest (`dependencies`/`devDependencies`) path, i.e. when the
flattened dependency table offers no truthy entry for the package; when
the specifier comes from the dependency table, the `workspace:`/
`workspace:*` prefix is stripped from it instead. -/
theorem getDependencyVersion_workspace_resolution
    (dep : String) (packageJson : Option PackageJson)
    (allDeps : Option (List (String × String))) (v : String) :
    (allDeps.bind (fun ad => truthyLookup ad dep) = none →
      manifestVersionLookup packageJson dep = some v →
      jsStartsWith v "workspace:" = true →
      getDependencyVersion dep packageJson allDeps = "latest") ∧
    (∀ ad : List (String × String),
      truthyLookup ad dep = some v →
      jsStartsWith v "workspace:" = true →
      getDependencyVersion dep packageJson (some ad) = stripWorkspaceTag v) := by
  constructor
  · intro hnone hman hws
    simp [getDependencyVersion, hnone, hman, hws]
  · intro ad had hws
    have hbind : (some ad).bind (fun ad => truthyLookup ad dep) = some v := by
      simpa using had
    simp [getDependencyVersion, hbind, jsStartsWith_workspace_stripRangeOps v hws]

/-- Witness for `getDependencyVersion_workspace_resolution` at concrete
inputs: a manifest-path `workspace:*` entry yields `"latest"`, and a
dependency-table `workspace:^1.2.3` entry yields `"^1.2.3"`. -/
theorem getDependencyVersion_workspace_resolution_witness :
    getDependencyVersion "ui"
      (some ⟨none, [("ui", "workspace:*")], []⟩) none = "latest" ∧
    getDependencyVersion "ui" none
      (some [("ui", "workspace:^1.2.3")]) = stripWorkspaceTag "workspace:^1.2.3" := by
  constructor
  · exact (getDependencyVersion_workspace_resolution "ui"
      (some ⟨none, [("ui", "workspace:*")], []⟩) none "workspace:*").1
      (by decide) (by decide) (by decide)
  · exact (getDependencyVersion_workspace_resolution "ui" none
      (some [("ui", "workspace:^1.2.3")]) "workspace:^1.2.3").2
      [("ui", "workspace:^1.2.3")] (by decide) (by decide)

/-- C2 counterexample: through the dependency-table path, a
`workspace:^1.2.3` specifier yields `"^1.2.3"`, a result that *does*
begin with the range operator `^`. -/
theorem getDependencyVersion_range_op_counterexample :
    getDependencyVersion "ui" none (some [("ui", "workspace:^1.2.3")]) = "^1.2.3" ∧
    beginsWithRangeOp
      (getDependencyVersion "ui" none (some [("ui", "workspace:^1.2.3")])) = true := by
  constructor <;> decide

/-- C2, amended: the result of `getDependencyVersion` never begins with a
range operator (`^ ~ > < =`) on the esbuild variant, on the manifest
path of the bundler variant, and on the dependency-table path whenever
the operator-stripped specifier does not carry a `workspace:` prefix
(`workspace:` + operator specifiers in the dependency table are the one
exception); `"^18.2.0"` resolves to `"18.2.0"` and a missing entry to
`"latest"`. -/
theorem getDependencyVersion_never_range_op
    (dep : String) (packageJson : Option PackageJson) :
    beginsWithRangeOp (getDependencyVersionEsbuild dep packageJson) = false ∧
    beginsWithRangeOp (getDependencyVersion dep packageJson none) = false ∧
    (∀ (ad : List (String × String)) (v : String),
      truthyLookup ad dep = some v →
      jsStartsWith (stripRangeOps v) "workspace:" = false →
      beginsWithRangeOp (getDependencyVersion dep packageJson (some ad)) = false) ∧
    getDependencyVersion "react" (some ⟨none, [("react", "^18.2.0")], []⟩) none
      = "18.2.0" ∧
    getDependencyVersion "react" none none = "latest" := by
  refine ⟨?_, ?_, ?_, by decide, by decide⟩
  · unfold getDependencyVersionEsbuild
    cases h : manifestVersionLookup packageJson dep with
    | none => rfl
    | some v => exact beginsWithRangeOp_stripRangeOps v
  · unfold getDependencyVersion
    simp only [Option.none_bind]
    cases h : manifestVersionLookup packageJson dep with
    | none => rfl
    | some v =>
      show beginsWithRangeOp
        (if jsStartsWith v "workspace:" = true then "latest"
         else stripRangeOps v) = false
      by_cases hws : jsStartsWith v "workspace:" = true
      · rw [if_pos hws]; rfl
      · rw [if_neg hws]
        exact beginsWithRangeOp_stripRangeOps v
  · intro ad v had hws
    have hbind : (some ad).bind (fun a => truthyLookup a dep) = some v := by
      simpa using had
    simp only [getDependencyVersion, hbind,
      stripWorkspaceTag_of_not_workspace _ hws]
    exact beginsWithRangeOp_stripRangeOps v

/-- Witness for `getDependencyVersion_never_range_op` at concrete inputs. -/
theorem getDependencyVersion_never_range_op_witness :
    beginsWithRangeOp (getDependencyVersion "x" none (some [("x", "~2.0.0")])) = false := by
  exact (getDependencyVersion_never_range_op "x" none).2.2.1
    [("x", "~2.0.0")] "~2.0.0" (by decide) (by decide)

/-! ## Monorepo detection: the workspace-package ordering (claim C4)

Source: the `WorkspacePackage` / `MonorepoInfo` interfaces and the final
`result.packages.sort(...)` of `detectMonorepo`. -/

structure WorkspacePackage where
  name : String
  path : String
  packageJson : PackageJson
  entryPoint : Option String
deriving DecidableEq

structure MonorepoInfo where
  isMonorepo : Bool
  rootPackageJson : Option PackageJson
  packages : List WorkspacePackage
  allDependencies : List (String × String)
deriving DecidableEq

def jsIncludesAux (sub : List Char) : List Char → Bool
  | [] => sub.isPrefixOf ([] : List Char)
  | c :: rest => sub.isPrefixOf (c :: rest) || jsIncludesAux sub rest

/-- `s.includes(sub)`. -/
def jsIncludes (s sub : String) : Bool := jsIncludesAux sub.data s.data

/-- `a.path.includes("app") || a.entryPoint !== null` — the
"is an app package" test inside the comparator of `detectMonorepo`. -/
def isAppPackage (p : WorkspacePackage) : Bool :=
  jsIncludes p.path "app" || p.entryPoint.isSome

/-- `a` sorts no later than `b` under the comparator

```
result.packages.sort((a, b) => {
  const aIsApp = a.path.includes("app") || a.entryPoint !== null;
  const bIsApp = b.path.includes("app") || b.entryPoint !== null;
  if (aIsApp && !bIsApp) return -1;
  if (!aIsApp && bIsApp) return 1;
  return a.path.localeCompare(b.path);
});
```

i.e. the comparator returns `≤ 0` on `(a, b)`. `localeCompare` is
modelled as code-point order on the character lists. -/
def workspaceLE (a b : WorkspacePackage) : Bool :=
  if isAppPackage a && !isAppPackage b then true
  else if !isAppPackage a && isAppPackage b then false
  else decide (a.path.data ≤ b.path.data)

/-- `result.packages.sort(...)`: a stable sort by the comparator. -/
def sortPackages (ps : List WorkspacePackage) : List WorkspacePackage :=
  ps.mergeSort workspaceLE

lemma workspaceLE_trans (a b c : WorkspacePackage)
    (hab : workspaceLE a b = true) (hbc : workspaceLE b c = true) :
    workspaceLE a c = true := by
  unfold workspaceLE at hab hbc ⊢
  by_cases ha : isAppPackage a = true <;>
    by_cases hb : isAppPackage b = true <;>
      by_cases hc : isAppPackage c = true <;>
        simp_all
  · exact le_trans hab hbc
  · exact le_trans hab hbc

lemma workspaceLE_total (a b : WorkspacePackage) :
    (workspaceLE a b || workspaceLE b a) = true := by
  unfold workspaceLE
  by_cases ha : isAppPackage a = true <;>
    by_cases hb : isAppPackage b = true <;>
      simp_all [le_total a.path.data b.path.data]

/-- C4 counterexample: a package `y` at path `apps/y` **without** an
entry point is ordered before a package `x` at path `libs/x` **with**
one, because the comparator treats any package whose path contains the
substring `"app"` like an entry-point-bearing one. -/
theorem sortPackages_entry_first_counterexample :
    sortPackages
      [⟨"x", "libs/x", ⟨none, [], []⟩, some "libs/x/src/main.tsx"⟩,
       ⟨"y", "apps/y", ⟨none, [], []⟩, none⟩] =
      [⟨"y", "apps/y", ⟨none, [], []⟩, none⟩,
       ⟨"x", "libs/x", ⟨none, [], []⟩, some "libs/x/src/main.tsx"⟩] ∧
    (⟨"y", "apps/y", ⟨none, [], []⟩, none⟩ : WorkspacePackage).entryPoint
      = none ∧
    (⟨"x", "libs/x", ⟨none, [], []⟩,
      some "libs/x/src/main.tsx"⟩ : WorkspacePackage).entryPoint.isSome
      = true := by
  refine ⟨?_, rfl, rfl⟩
  have hle : workspaceLE
      ⟨"x", "libs/x", ⟨none, [], []⟩, some "libs/x/src/main.tsx"⟩
      ⟨"y", "apps/y", ⟨none, [], []⟩, none⟩ = false := by
    unfold workspaceLE isAppPackage jsIncludes
    simp only [jsIncludesAux, List.isPrefixOf]
    decide
  simp [sortPackages, List.mergeSort, List.merge, hle]

/-- C4, amended: in the sorted workspace-package sequence, every package
whose path contains the substring `"app"` **or** that has a non-null
resolved entry point is ordered before every package with neither
property, and any two packages that tie under that combined criterion
are ordered by their directory path (code-point order); the output is a
permutation of the detected packages. -/
theorem sortPackages_app_packages_first (ps : List WorkspacePackage) :
    (sortPackages ps).Perm ps ∧
    (sortPackages ps).Pairwise (fun a b =>
      (isAppPackage b = true → isAppPackage a = true) ∧
      (isAppPackage a = isAppPackage b → a.path.data ≤ b.path.data)) := by
  constructor
  · exact List.mergeSort_perm ps workspaceLE
  · have h := List.sorted_mergeSort workspaceLE_trans workspaceLE_total ps
    refine h.imp ?_
    intro a b hab
    unfold workspaceLE at hab
    by_cases ha : isAppPackage a = true <;>
      by_cases hb : isAppPackage b = true <;>
        simp_all

/-! ## Import resolution (claim C3)

Source: `resolveImport` of the self-contained bundler variant, and the
relative-path `onResolve` hook of the esbuild variant's `virtualFs`
plugin (`index.ts`). -/

structure ResolveResult where
  resolved : String
  isExternal : Bool
deriving DecidableEq

def dropLastSegAux : List Char → Option (List Char)
  | [] => none
  | c :: rest => if c = '/' then some rest else dropLastSegAux rest

/-- `s.replace(/\/[^/]+$/, "")`: drop a final `/segment` (at least one
non-slash character after the last slash); when the string ends with a
slash or contains none, it is returned unchanged. -/
def jsDropLastSeg (s : String) : String :=
  match s.data.reverse with
  | [] => s
  | c :: _ =>
    if c = '/' then s
    else
      match dropLastSegAux s.data.reverse with
      | some rest => String.mk rest.reverse
      | none => s

def collapseSlashesAux : Bool → List Char → List Char
  | _, [] => []
  | prevSlash, c :: rest =>
    if c = '/' then
      if prevSlash then collapseSlashesAux true rest
      else '/' :: collapseSlashesAux true rest
    else c :: collapseSlashesAux false rest

/-- `s.replace(/\/+/g, "/")`: collapse every run of slashes to one. -/
def collapseSlashes (s : String) : String :=
  String.mk (collapseSlashesAux false s.data)

/-- `s.replace(/^\//, "")`: drop one leading slash. -/
def stripLeadingSlash (s : String) : String :=
  match s.data with
  | '/' :: rest => String.mk rest
  | _ => s

/-- The joined path of a relative import:
`` `${basedir}/${importPath}`.replace(/\/+/g, "/").replace(/^\//, "") ``
with `basedir = importer.replace(/\/[^/]+$/, "")`. Note that `.` and
`..` segments are **not** collapsed. -/
def joinRelativePath (importer importPath : String) : String :=
  stripLeadingSlash (collapseSlashes (jsDropLastSeg importer ++ "/" ++ importPath))

/-- The extension/index candidate list of `resolveImport` (which probes
the bare path separately, *after* this list). -/
def extensionCandidates : List String :=
  [".tsx", ".ts", ".jsx", ".js", "/index.tsx", "/index.ts", "/index.jsx", "/index.js"]

/-- The candidate list of the esbuild variant's relative `onResolve`
hook, which puts the empty suffix first. -/
def esbuildExtensionCandidates : List String :=
  ["", ".tsx", ".ts", ".jsx", ".js", "/index.tsx", "/index.ts", "/index.jsx", "/index.js"]

/-- First candidate `base ++ ext` (over `suffixes`, in order) with a
truthy entry in the source table. -/
def probeFirst (sourceFiles : List (String × String)) (base : String)
    (suffixes : List String) : Option String :=
  suffixes.findSome? fun ext =>
    if (truthyLookup sourceFiles (base ++ ext)).isSome then some (base ++ ext)
    else none

/-- The conventional per-package entry candidates probed for a workspace
package import. -/
def workspaceEntryCandidates (pkgPath : String) : List String :=
  [pkgPath ++ "/src/index.tsx", pkgPath ++ "/src/index.ts",
   pkgPath ++ "/index.tsx", pkgPath ++ "/index.ts"]

/-- `resolveImport` of the self-contained bundler variant: relative
specifiers are joined against the importer's directory and probed
against the typed extension/index candidates and then the bare path;
`@/`- and `src/`-alias specifiers are probed under `src/`; `@`-prefixed
specifiers matching a workspace package name probe that package's entry
candidates; everything else becomes an external `https://esm.sh` URL
with the version from `getDependencyVersion`. -/
def resolveImport (importPath importer : String)
    (sourceFiles : List (String × String)) (monorepoInfo : MonorepoInfo)
    (packageJson : Option PackageJson) (allDeps : List (String × String)) :
    ResolveResult :=
  if jsStartsWith importPath "." then
    match probeFirst sourceFiles (joinRelativePath importer importPath)
        extensionCandidates with
    | some candidate => ⟨candidate, false⟩
    | none =>
      if (truthyLookup sourceFiles (joinRelativePath importer importPath)).isSome
      then ⟨joinRelativePath importer importPath, false⟩
      else ⟨joinRelativePath importer importPath, false⟩
  else
    let aliasResult : Option ResolveResult :=
      if jsStartsWith importPath "@/" || jsStartsWith importPath "src/" then
        let path :=
          if jsStartsWith importPath "@/" then
            "src/" ++ String.mk (importPath.data.drop 2)
          else importPath
        (probeFirst sourceFiles path extensionCandidates).map (⟨·, false⟩)
      else none
    match aliasResult with
    | some r => r
    | none =>
      let workspaceResult : Option ResolveResult :=
        if jsStartsWith importPath "@" then
          match monorepoInfo.packages.find? (fun p => p.name == importPath) with
          | some pkg =>
            ((workspaceEntryCandidates pkg.path).findSome? fun ep =>
              if (truthyLookup sourceFiles ep).isSome then some ep
              else none).map (⟨·, false⟩)
          | none => none
        else none
      match workspaceResult with
      | some r => r
      | none =>
        ⟨"https://esm.sh/" ++ importPath ++ "@"
            ++ getDependencyVersion importPath packageJson (some allDeps),
          true⟩

/-- The relative-path `onResolve` hook of the esbuild variant's
`virtualFs` plugin: same join, but the candidate list starts with the
empty suffix. -/
def onResolveRelative (importPath importer : String)
    (sourceFiles : List (String × String)) : String :=
  match probeFirst sourceFiles
      (stripLeadingSlash (collapseSlashes
        ((if importer ≠ "" then jsDropLastSeg importer else "") ++ "/" ++ importPath)))
      esbuildExtensionCandidates with
  | some candidate => candidate
  | none =>
    stripLeadingSlash (collapseSlashes
      ((if importer ≠ "" then jsDropLastSeg importer else "") ++ "/" ++ importPath))

/-- C3 counterexample: with both the bare joined path and its `.tsx`
sibling present in the source table, `resolveImport` (the self-contained
bundler) resolves a relative import to the `.tsx` candidate, i.e. it
does **not** prefer the empty suffix over typed extensions. -/
theorem resolveImport_bare_path_not_preferred :
    (resolveImport "./foo" "src/main.tsx"
        [("src/./foo", "export const x = 1"), ("src/./foo.tsx", "export const y = 1")]
        ⟨false, none, [], []⟩ none []).resolved = "src/./foo.tsx" ∧
    truthyLookup
        [("src/./foo", "export const x = 1"), ("src/./foo.tsx", "export const y = 1")]
        "src/./foo" = some "export const x = 1" ∧
    joinRelativePath "src/main.tsx" "./foo" = "src/./foo" := by
  refine ⟨?_, ?_, ?_⟩ <;> decide

/-- C3, amended: both variants probe the joined path against a fixed
ordered candidate list and the first candidate with a truthy source
table entry wins (else the unresolved joined path is returned,
non-external); both try `.tsx`/`.ts` before `.jsx`/`.js`, but the
esbuild variant probes the empty suffix **first** while the
self-contained bundler probes the bare path **last**, after all typed
extension and index candidates. -/
theorem resolveImport_probe_order (importPath importer : String)
    (sourceFiles : List (String × String)) (monorepoInfo : MonorepoInfo)
    (packageJson : Option PackageJson) (allDeps : List (String × String))
    (hrel : jsStartsWith importPath "." = true) (himp : importer ≠ "") :
    resolveImport importPath importer sourceFiles monorepoInfo packageJson allDeps =
      ⟨(probeFirst sourceFiles (joinRelativePath importer importPath)
          (extensionCandidates ++ [""])).getD (joinRelativePath importer importPath),
        false⟩ ∧
    onResolveRelative importPath importer sourceFiles =
      (probeFirst sourceFiles (joinRelativePath importer importPath)
          esbuildExtensionCandidates).getD (joinRelativePath importer importPath) ∧
    esbuildExtensionCandidates = "" :: extensionCandidates := by
  refine ⟨?_, ?_, by decide⟩
  · unfold resolveImport
    rw [if_pos hrel]
    have happ : probeFirst sourceFiles (joinRelativePath importer importPath)
        (extensionCandidates ++ [""]) =
        (probeFirst sourceFiles (joinRelativePath importer importPath)
          extensionCandidates).or
        (probeFirst sourceFiles (joinRelativePath importer importPath) [""]) := by
      unfold probeFirst
      rw [List.findSome?_append]
    rw [happ]
    have hsingle : probeFirst sourceFiles (joinRelativePath importer importPath) [""] =
        if (truthyLookup sourceFiles (joinRelativePath importer importPath)).isSome
        then some (joinRelativePath importer importPath) else none := by
      unfold probeFirst
      simp only [List.findSome?]
      rw [String.append_empty]
      cases (truthyLookup sourceFiles (joinRelativePath importer importPath)).isSome <;> rfl
    rw [hsingle]
    cases hp : probeFirst sourceFiles (joinRelativePath importer importPath)
        extensionCandidates with
    | some c => rfl
    | none =>
      cases ht : (truthyLookup sourceFiles (joinRelativePath importer importPath)).isSome with
      | true => rfl
      | false => rfl
  · unfold onResolveRelative joinRelativePath
    rw [if_pos himp]
    cases hp : probeFirst sourceFiles
        (stripLeadingSlash (collapseSlashes (jsDropLastSeg importer ++ "/" ++ importPath)))
        esbuildExtensionCandidates with
    | some c => rfl
    | none => rfl

/-- Witness for `resolveImport_probe_order` at concrete inputs. -/
theorem resolveImport_probe_order_witness :
    resolveImport "./widget" "src/main.tsx" [("src/./widget.ts", "x")]
        ⟨false, none, [], []⟩ none [] =
      ⟨(probeFirst [("src/./widget.ts", "x")]
          (joinRelativePath "src/main.tsx" "./widget")
          (extensionCandidates ++ [""])).getD
          (joinRelativePath "src/main.tsx" "./widget"), false⟩ := by
  exact (resolveImport_probe_order "./widget" "src/main.tsx"
    [("src/./widget.ts", "x")] ⟨false, none, [], []⟩ none []
    (by decide) (by decide)).1

/-! ## Tailwind-style utility CSS generation (claim C9)

Source: `generateTailwindCSS` of the self-contained bundler variant.
The utility table is the literal object of the source, followed by the
spacing-scale, color and z-index loops, applied in assignment order
(later assignments shadow earlier ones, as for a JS record). -/

def tailwindBase : String :=
  "\n*, ::before, ::after \x7b box-sizing: border-box; border-width: 0; border-style: solid; \x7d\nhtml \x7b line-height: 1.5; -webkit-text-size-adjust: 100%; font-family: ui-sans-serif, system-ui, sans-serif; \x7d\nbody \x7b margin: 0; line-height: inherit; \x7d\nh1, h2, h3, h4, h5, h6 \x7b font-size: inherit; font-weight: inherit; \x7d\na \x7b color: inherit; text-decoration: inherit; \x7d\nbutton, input, select, textarea \x7b font-family: inherit; font-size: 100%; margin: 0; padding: 0; \x7d\nbutton, [role=\"button\"] \x7b cursor: pointer; \x7d\nimg, video \x7b max-width: 100%; height: auto; display: block; \x7d\n"

def baseUtilities : List (String × String) := [
  ("flex", ".flex \x7b display: flex; \x7d"),
  ("grid", ".grid \x7b display: grid; \x7d"),
  ("hidden", ".hidden \x7b display: none; \x7d"),
  ("block", ".block \x7b display: block; \x7d"),
  ("inline-flex", ".inline-flex \x7b display: inline-flex; \x7d"),
  ("flex-col", ".flex-col \x7b flex-direction: column; \x7d"),
  ("flex-row", ".flex-row \x7b flex-direction: row; \x7d"),
  ("flex-wrap", ".flex-wrap \x7b flex-wrap: wrap; \x7d"),
  ("flex-1", ".flex-1 \x7b flex: 1 1 0%; \x7d"),
  ("items-center", ".items-center \x7b align-items: center; \x7d"),
  ("items-start", ".items-start \x7b align-items: flex-start; \x7d"),
  ("items-end", ".items-end \x7b align-items: flex-end; \x7d"),
  ("justify-center", ".justify-center \x7b justify-content: center; \x7d"),
  ("justify-between", ".justify-between \x7b justify-content: space-between; \x7d"),
  ("justify-start", ".justify-start \x7b justify-content: flex-start; \x7d"),
  ("justify-end", ".justify-end \x7b justify-content: flex-end; \x7d"),
  ("relative", ".relative \x7b position: relative; \x7d"),
  ("absolute", ".absolute \x7b position: absolute; \x7d"),
  ("fixed", ".fixed \x7b position: fixed; \x7d"),
  ("sticky", ".sticky \x7b position: sticky; \x7d"),
  ("inset-0", ".inset-0 \x7b inset: 0px; \x7d"),
  ("top-0", ".top-0 \x7b top: 0px; \x7d"),
  ("right-0", ".right-0 \x7b right: 0px; \x7d"),
  ("bottom-0", ".bottom-0 \x7b bottom: 0px; \x7d"),
  ("left-0", ".left-0 \x7b left: 0px; \x7d"),
  ("overflow-hidden", ".overflow-hidden \x7b overflow: hidden; \x7d"),
  ("overflow-auto", ".overflow-auto \x7b overflow: auto; \x7d"),
  ("rounded", ".rounded \x7b border-radius: 0.25rem; \x7d"),
  ("rounded-lg", ".rounded-lg \x7b border-radius: 0.5rem; \x7d"),
  ("rounded-xl", ".rounded-xl \x7b border-radius: 0.75rem; \x7d"),
  ("rounded-2xl", ".rounded-2xl \x7b border-radius: 1rem; \x7d"),
  ("rounded-full", ".rounded-full \x7b border-radius: 9999px; \x7d"),
  ("border", ".border \x7b border-width: 1px; \x7d"),
  ("border-2", ".border-2 \x7b border-width: 2px; \x7d"),
  ("shadow", ".shadow \x7b box-shadow: 0 1px 3px 0 rgb(0 0 0 / 0.1); \x7d"),
  ("shadow-lg", ".shadow-lg \x7b box-shadow: 0 10px 15px -3px rgb(0 0 0 / 0.1); \x7d"),
  ("shadow-xl", ".shadow-xl \x7b box-shadow: 0 20px 25px -5px rgb(0 0 0 / 0.1); \x7d"),
  ("transition", ".transition \x7b transition-property: all; transition-duration: 150ms; \x7d"),
  ("transition-all", ".transition-all \x7b transition-property: all; transition-duration: 150ms; \x7d"),
  ("duration-200", ".duration-200 \x7b transition-duration: 200ms; \x7d"),
  ("duration-300", ".duration-300 \x7b transition-duration: 300ms; \x7d"),
  ("cursor-pointer", ".cursor-pointer \x7b cursor: pointer; \x7d"),
  ("pointer-events-none", ".pointer-events-none \x7b pointer-events: none; \x7d"),
  ("select-none", ".select-none \x7b user-select: none; \x7d"),
  ("opacity-0", ".opacity-0 \x7b opacity: 0; \x7d"),
  ("opacity-50", ".opacity-50 \x7b opacity: 0.5; \x7d"),
  ("opacity-100", ".opacity-100 \x7b opacity: 1; \x7d"),
  ("text-xs", ".text-xs \x7b font-size: 0.75rem; line-height: 1rem; \x7d"),
  ("text-sm", ".text-sm \x7b font-size: 0.875rem; line-height: 1.25rem; \x7d"),
  ("text-base", ".text-base \x7b font-size: 1rem; line-height: 1.5rem; \x7d"),
  ("text-lg", ".text-lg \x7b font-size: 1.125rem; line-height: 1.75rem; \x7d"),
  ("text-xl", ".text-xl \x7b font-size: 1.25rem; line-height: 1.75rem; \x7d"),
  ("text-2xl", ".text-2xl \x7b font-size: 1.5rem; line-height: 2rem; \x7d"),
  ("text-3xl", ".text-3xl \x7b font-size: 1.875rem; line-height: 2.25rem; \x7d"),
  ("text-4xl", ".text-4xl \x7b font-size: 2.25rem; line-height: 2.5rem; \x7d"),
  ("font-normal", ".font-normal \x7b font-weight: 400; \x7d"),
  ("font-medium", ".font-medium \x7b font-weight: 500; \x7d"),
  ("font-semibold", ".font-semibold \x7b font-weight: 600; \x7d"),
  ("font-bold", ".font-bold \x7b font-weight: 700; \x7d"),
  ("text-center", ".text-center \x7b text-align: center; \x7d"),
  ("text-left", ".text-left \x7b text-align: left; \x7d"),
  ("text-right", ".text-right \x7b text-align: right; \x7d"),
  ("uppercase", ".uppercase \x7b text-transform: uppercase; \x7d"),
  ("lowercase", ".lowercase \x7b text-transform: lowercase; \x7d"),
  ("capitalize", ".capitalize \x7b text-transform: capitalize; \x7d"),
  ("truncate", ".truncate \x7b overflow: hidden; text-overflow: ellipsis; white-space: nowrap; \x7d"),
  ("whitespace-nowrap", ".whitespace-nowrap \x7b white-space: nowrap; \x7d"),
  ("w-full", ".w-full \x7b width: 100%; \x7d"),
  ("w-auto", ".w-auto \x7b width: auto; \x7d"),
  ("h-full", ".h-full \x7b height: 100%; \x7d"),
  ("h-auto", ".h-auto \x7b height: auto; \x7d"),
  ("h-screen", ".h-screen \x7b height: 100vh; \x7d"),
  ("min-h-screen", ".min-h-screen \x7b min-height: 100vh; \x7d"),
  ("max-w-full", ".max-w-full \x7b max-width: 100%; \x7d"),
  ("max-w-screen-xl", ".max-w-screen-xl \x7b max-width: 1280px; \x7d"),
  ("mx-auto", ".mx-auto \x7b margin-left: auto; margin-right: auto; \x7d"),
  ("animate-spin", ".animate-spin \x7b animation: spin 1s linear infinite; \x7d @keyframes spin \x7b to \x7b transform: rotate(360deg); \x7d \x7d"),
  ("animate-pulse", ".animate-pulse \x7b animation: pulse 2s cubic-bezier(0.4, 0, 0.6, 1) infinite; \x7d @keyframes pulse \x7b 0%, 100% \x7b opacity: 1; \x7d 50% \x7b opacity: .5; \x7d \x7d"),
  ("animate-bounce", ".animate-bounce \x7b animation: bounce 1s infinite; \x7d @keyframes bounce \x7b 0%, 100% \x7b transform: translateY(-25%); \x7d 50% \x7b transform: translateY(0); \x7d \x7d"),
  ("sr-only", ".sr-only \x7b position: absolute; width: 1px; height: 1px; padding: 0; margin: -1px; overflow: hidden; clip: rect(0, 0, 0, 0); white-space: nowrap; border-width: 0; \x7d")
]

def spacingScale : List (String × String) :=
  [("0", "0px"), ("1", "0.25rem"), ("2", "0.5rem"), ("3", "0.75rem"), ("4", "1rem"),
   ("5", "1.25rem"), ("6", "1.5rem"), ("8", "2rem"), ("10", "2.5rem"), ("12", "3rem"),
   ("16", "4rem"), ("20", "5rem"), ("24", "6rem"), ("px", "1px")]

/-- The spacing-utility assignments made for one `spacingScale` entry,
in the source's assignment order. -/
def spacingEntriesFor (kv : String × String) : List (String × String) :=
  [("m-" ++ kv.1, ".m-" ++ kv.1 ++ " \x7b margin: " ++ kv.2 ++ "; \x7d"),
   ("mx-" ++ kv.1, ".mx-" ++ kv.1 ++ " \x7b margin-left: " ++ kv.2 ++ "; margin-right: " ++ kv.2 ++ "; \x7d"),
   ("my-" ++ kv.1, ".my-" ++ kv.1 ++ " \x7b margin-top: " ++ kv.2 ++ "; margin-bottom: " ++ kv.2 ++ "; \x7d"),
   ("mt-" ++ kv.1, ".mt-" ++ kv.1 ++ " \x7b margin-top: " ++ kv.2 ++ "; \x7d"),
   ("mr-" ++ kv.1, ".mr-" ++ kv.1 ++ " \x7b margin-right: " ++ kv.2 ++ "; \x7d"),
   ("mb-" ++ kv.1, ".mb-" ++ kv.1 ++ " \x7b margin-bottom: " ++ kv.2 ++ "; \x7d"),
   ("ml-" ++ kv.1, ".ml-" ++ kv.1 ++ " \x7b margin-left: " ++ kv.2 ++ "; \x7d"),
   ("p-" ++ kv.1, ".p-" ++ kv.1 ++ " \x7b padding: " ++ kv.2 ++ "; \x7d"),
   ("px-" ++ kv.1, ".px-" ++ kv.1 ++ " \x7b padding-left: " ++ kv.2 ++ "; padding-right: " ++ kv.2 ++ "; \x7d"),
   ("py-" ++ kv.1, ".py-" ++ kv.1 ++ " \x7b padding-top: " ++ kv.2 ++ "; padding-bottom: " ++ kv.2 ++ "; \x7d"),
   ("pt-" ++ kv.1, ".pt-" ++ kv.1 ++ " \x7b padding-top: " ++ kv.2 ++ "; \x7d"),
   ("pr-" ++ kv.1, ".pr-" ++ kv.1 ++ " \x7b padding-right: " ++ kv.2 ++ "; \x7d"),
   ("pb-" ++ kv.1, ".pb-" ++ kv.1 ++ " \x7b padding-bottom: " ++ kv.2 ++ "; \x7d"),
   ("pl-" ++ kv.1, ".pl-" ++ kv.1 ++ " \x7b padding-left: " ++ kv.2 ++ "; \x7d"),
   ("gap-" ++ kv.1, ".gap-" ++ kv.1 ++ " \x7b gap: " ++ kv.2 ++ "; \x7d"),
   ("w-" ++ kv.1, ".w-" ++ kv.1 ++ " \x7b width: " ++ kv.2 ++ "; \x7d"),
   ("h-" ++ kv.1, ".h-" ++ kv.1 ++ " \x7b height: " ++ kv.2 ++ "; \x7d"),
   ("space-x-" ++ kv.1, ".space-x-" ++ kv.1 ++ " > :not([hidden]) ~ :not([hidden]) \x7b margin-left: " ++ kv.2 ++ "; \x7d"),
   ("space-y-" ++ kv.1, ".space-y-" ++ kv.1 ++ " > :not([hidden]) ~ :not([hidden]) \x7b margin-top: " ++ kv.2 ++ "; \x7d")]

def colorsTable : List (String × String) :=
  [("white", "#fff"), ("black", "#000"), ("transparent", "transparent"),
   ("gray-100", "#f3f4f6"), ("gray-200", "#e5e7eb"), ("gray-300", "#d1d5db"),
   ("gray-400", "#9ca3af"), ("gray-500", "#6b7280"), ("gray-600", "#4b5563"),
   ("gray-700", "#374151"), ("gray-800", "#1f2937"), ("gray-900", "#111827"),
   ("red-500", "#ef4444"), ("green-500", "#22c55e"), ("blue-500", "#3b82f6"),
   ("primary", "hsl(var(--primary))"), ("secondary", "hsl(var(--secondary))"),
   ("muted", "hsl(var(--muted))"), ("accent", "hsl(var(--accent))"),
   ("destructive", "hsl(var(--destructive))"), ("background", "hsl(var(--background))"),
   ("foreground", "hsl(var(--foreground))"), ("card", "hsl(var(--card))"),
   ("border", "hsl(var(--border))"), ("input", "hsl(var(--input))")]

/-- The color-utility assignments made for one color, in source order. -/
def colorEntriesFor (kv : String × String) : List (String × String) :=
  [("bg-" ++ kv.1, ".bg-" ++ kv.1 ++ " \x7b background-color: " ++ kv.2 ++ "; \x7d"),
   ("text-" ++ kv.1, ".text-" ++ kv.1 ++ " \x7b color: " ++ kv.2 ++ "; \x7d"),
   ("border-" ++ kv.1, ".border-" ++ kv.1 ++ " \x7b border-color: " ++ kv.2 ++ "; \x7d")]

def zIndexEntries : List (String × String) :=
  [0, 10, 20, 30, 40, 50].map fun z =>
    ("z-" ++ toString z, ".z-" ++ toString z ++ " \x7b z-index: " ++ toString z ++ "; \x7d")

/-- One record assignment `utilities[k] = v`. -/
def recordUpdate (f : String → Option String) (k v : String) :
    String → Option String :=
  fun x => if x = k then some v else f x

/-- A sequence of record assignments, in order. -/
def applyEntries (f : String → Option String)
    (kvs : List (String × String)) : String → Option String :=
  kvs.foldl (fun g kv => recordUpdate g kv.1 kv.2) f

/-- The complete `utilities` record of `generateTailwindCSS`. -/
def utilities : String → Option String :=
  applyEntries
    (applyEntries
      (applyEntries
        (applyEntries (fun _ => none) baseUtilities)
        (spacingScale.flatMap spacingEntriesFor))
      (colorsTable.flatMap colorEntriesFor))
    zIndexEntries

/-- The variant prefixes of the strip regex
`/^(hover|focus|active|disabled|dark|sm|md|lg|xl|2xl):/`, in
alternation order. -/
def variantTags : List String :=
  ["hover:", "focus:", "active:", "disabled:", "dark:",
   "sm:", "md:", "lg:", "xl:", "2xl:"]

/-- `className.replace(/^(hover|focus|active|disabled|dark|sm|md|lg|xl|2xl):/, "")`. -/
def dropVariantTag (className : String) : String :=
  match variantTags.find? (fun p => jsStartsWith className p) with
  | some p => String.mk (className.data.drop p.data.length)
  | none => className

def openBraceChar : Char := Char.ofNat 123

def closeBraceChar : Char := Char.ofNat 125

def findBraceBody : List Char → Option (List Char)
  | [] => none
  | c :: rest =>
    if c = openBraceChar then
      let body := rest.takeWhile (fun x => x ≠ closeBraceChar)
      if body ≠ [] ∧ (rest.drop body.length).head? = some closeBraceChar then
        some body
      else findBraceBody rest
    else findBraceBody rest

/-- `rule.match(/\{([^}]+)\}/)?.[1] || ""`: the contents of the first
non-empty closed brace pair. -/
def extractRuleBody (s : String) : String :=
  match findBraceBody s.data with
  | some body => String.mk body
  | none => ""

/-- The CSS text appended for one used class name by the generation loop
of `generateTailwindCSS`. -/
def cssForClass (className : String) : String :=
  match utilities (dropVariantTag className) with
  | some baseRule =>
    if jsStartsWith className "hover:" then
      ".hover\\:" ++ dropVariantTag className ++ ":hover \x7b "
        ++ extractRuleBody baseRule ++ " \x7d\n"
    else if jsStartsWith className "focus:" then
      ".focus\\:" ++ dropVariantTag className ++ ":focus \x7b "
        ++ extractRuleBody baseRule ++ " \x7d\n"
    else if jsStartsWith className "sm:" then
      "@media (min-width: 640px) \x7b .sm\\:" ++ dropVariantTag className
        ++ " \x7b " ++ extractRuleBody baseRule ++ " \x7d \x7d\n"
    else if jsStartsWith className "md:" then
      "@media (min-width: 768px) \x7b .md\\:" ++ dropVariantTag className
        ++ " \x7b " ++ extractRuleBody baseRule ++ " \x7d \x7d\n"
    else if jsStartsWith className "lg:" then
      "@media (min-width: 1024px) \x7b .lg\\:" ++ dropVariantTag className
        ++ " \x7b " ++ extractRuleBody baseRule ++ " \x7d \x7d\n"
    else baseRule ++ "\n"
  | none =>
    match utilities className with
    | some u => u ++ "\n"
    | none => ""

/-- `generateTailwindCSS`: the base reset, the extracted CSS-variable
blocks, then one appended chunk per used class, in iteration order. -/
def generateTailwindCSS (usedClasses : List String) (cssVars : String) : String :=
  usedClasses.foldl (fun css c => css ++ cssForClass c)
    (tailwindBase ++ "\n" ++ cssVars ++ "\n")

/-- The media-wrapped rule emitted for the used class `sm:flex`. -/
def smFlexMediaRule : String :=
  "@media (min-width: 640px) \x7b .sm\\:flex \x7b  display: flex;  \x7d \x7d\n"

lemma foldl_strAppend_init (f : String → String) (l : List String)
    (init : String) :
    l.foldl (fun a x => a ++ f x) init = init ++ l.foldl (fun a x => a ++ f x) "" := by
  induction l generalizing init with
  | nil => simp [List.foldl]
  | cons x xs ih =>
    simp only [List.foldl]
    rw [ih (init ++ f x), ih ("" ++ f x)]
    simp [String.append_assoc]

/-- C9: whenever the used-class set contains `sm:flex`, the generated
CSS contains the `.flex` declaration body wrapped in a
`@media (min-width: 640px)` block, and the chunk contributed by the
`sm:flex` token is exactly that media rule (in particular no unprefixed
`.flex` rule is emitted because of it). -/
theorem generateTailwindCSS_sm_flex (usedClasses : List String)
    (cssVars : String) (h : "sm:flex" ∈ usedClasses) :
    (∃ pre post, generateTailwindCSS usedClasses cssVars
      = pre ++ smFlexMediaRule ++ post) ∧
    cssForClass "sm:flex" = smFlexMediaRule ∧
    utilities "flex" = some ".flex \x7b display: flex; \x7d" := by
  refine ⟨?_, by decide, by decide⟩
  rcases List.append_of_mem h with ⟨s, t, hst⟩
  subst hst
  unfold generateTailwindCSS
  rw [List.foldl_append]
  simp only [List.foldl]
  rw [foldl_strAppend_init cssForClass t
    (List.foldl (fun a x => a ++ cssForClass x)
      (tailwindBase ++ "\n" ++ cssVars ++ "\n") s ++ cssForClass "sm:flex")]
  refine ⟨List.foldl (fun a x => a ++ cssForClass x)
      (tailwindBase ++ "\n" ++ cssVars ++ "\n") s,
    List.foldl (fun a x => a ++ cssForClass x) "" t, ?_⟩
  rw [show cssForClass "sm:flex" = smFlexMediaRule from by decide]

/-- Witness for `generateTailwindCSS_sm_flex` at a concrete used-class
set. -/
theorem generateTailwindCSS_sm_flex_witness :
    (∃ pre post, generateTailwindCSS ["sm:flex"] ""
      = pre ++ smFlexMediaRule ++ post) ∧
    cssForClass "sm:flex" = smFlexMediaRule ∧
    utilities "flex" = some ".flex \x7b display: flex; \x7d" := by
  exact generateTailwindCSS_sm_flex ["sm:flex"] "" (by decide)

/-! ## ZIP parsing (claims C7, C8, C10)

Source: `parseZip` (identical in both variants). Bytes are `Nat`s; the
external raw-deflate decompressor (`decompressSync` from the `fflate`
library, not part of this repository) is an uninterpreted function
parameter `deflate`. -/

/-- Little-endian 16-bit read at `off` (`DataView.getUint16(off, true)`);
`none` when fewer than two bytes remain (JS raises `RangeError`). -/
def readU16 (d : List Nat) (off : Nat) : Option Nat :=
  match d.drop off with
  | b0 :: b1 :: _ => some (b0 + 256 * b1)
  | _ => none

/-- Little-endian 32-bit read at `off` (`DataView.getUint32(off, true)`);
`none` when fewer than four bytes remain (JS raises `RangeError`). -/
def readU32 (d : List Nat) (off : Nat) : Option Nat :=
  match d.drop off with
  | b0 :: b1 :: b2 :: b3 :: _ => some (b0 + 256 * (b1 + 256 * (b2 + 256 * b3)))
  | _ => none

/-- `data.slice(a, b)` (clamping, never failing). -/
def jsSlice (d : List Nat) (a b : Nat) : List Nat := (d.drop a).take (b - a)

/-- `new TextDecoder().decode(bytes)`, modelled code-point-wise
(faithful for ASCII filenames, which is all the claims exercise). -/
def decodeBytes (bs : List Nat) : String := String.mk (bs.map Char.ofNat)

def dropThroughSlash : List Char → Option (List Char)
  | [] => none
  | c :: cs => if c = '/' then some cs else dropThroughSlash cs

/-- `fileName.replace(/^[^/]+\//, "")`: strip the top-level path segment
(at least one non-slash character followed by a slash); when the name
starts with a slash or contains none, it is unchanged. -/
def stripTopSegment (s : String) : String :=
  match s.data with
  | [] => s
  | c :: _ =>
    if c = '/' then s
    else
      match dropThroughSlash s.data with
      | some rest => String.mk rest
      | none => s

/-- The insertion-ordered file map (`Map<string, Uint8Array>`). -/
abbrev FileMap := List (String × List Nat)

/-- `Map.set`: overwrite in place when the key exists (keeping its
position), else append. -/
def mapSet (m : FileMap) (k : String) (v : List Nat) : FileMap :=
  match m with
  | [] => [(k, v)]
  | e :: rest => if e.1 = k then (k, v) :: rest else e :: mapSet rest k v

def mapContains (m : FileMap) (k : String) : Bool := m.any (fun e => e.1 == k)

def mapLookup (m : FileMap) (k : String) : Option (List Nat) := List.lookup k m

/-- The effect of one scanned entry on the accumulated file map: the
body of the `if (!fileName.endsWith("/"))` block of `parseZip`
(directory markers are skipped; method 8 is inflated, method 0 passed
through, anything else logs a warning and stores a zero-length
placeholder; an empty name after top-segment stripping is skipped). -/
def zipStoreEntry (deflate : List Nat → List Nat) (acc : FileMap)
    (name : String) (method : Nat) (compressed : List Nat) : FileMap :=
  if jsEndsWith name "/" then acc
  else
    if stripTopSegment name = "" then acc
    else
      mapSet acc (stripTopSegment name)
        (if method = 8 then deflate compressed
         else if method = 0 then compressed
         else [])

/-- The scan loop of `parseZip`, with explicit fuel (the JS loop is
bounded because the offset strictly grows by at least the 30-byte header
each iteration; `parseZip` passes the buffer length as fuel, which
`parseZipLoop_append` shows suffices). An out-of-range `DataView` read
(JS `RangeError`) is `.error ()`; under the loop guard the signature
read itself cannot fail. -/
def parseZipLoop (deflate : List Nat → List Nat) (d : List Nat) :
    Nat → Nat → FileMap → Except Unit FileMap
  | 0, _, acc => .ok acc
  | Nat.succ fuel, off, acc =>
    if off < d.length - 4 then
      match readU32 d off with
      | none => .error ()
      | some signature =>
        if signature = 0x04034b50 then
          match readU16 d (off + 8), readU32 d (off + 18),
              readU16 d (off + 26), readU16 d (off + 28) with
          | some method, some compressedSize, some nameLen, some extraLen =>
            parseZipLoop deflate d fuel (off + 30 + nameLen + extraLen + compressedSize)
              (zipStoreEntry deflate acc
                (decodeBytes (jsSlice d (off + 30) (off + 30 + nameLen)))
                method
                (jsSlice d (off + 30 + nameLen + extraLen)
                  (off + 30 + nameLen + extraLen + compressedSize)))
          | _, _, _, _ => .error ()
        else .ok acc
    else .ok acc

/-- `parseZip(data)`. -/
def parseZip (deflate : List Nat → List Nat) (d : List Nat) :
    Except Unit FileMap :=
  parseZipLoop deflate d d.length 0 []

/-! ### A well-formed-archive serializer, for stating C7/C10 -/

structure ZipEntry where
  name : String
  method : Nat
  content : List Nat
  extra : List Nat

def encodeName (s : String) : List Nat := s.data.map Char.toNat

/-- The 30-byte local-file header followed by filename, extra field and
payload, with every field at the offset `parseZip` reads it from
(version/flags, mod-time/date, CRC-32 and uncompressed size are zeroed:
`parseZip` ignores those offsets). -/
def encodeEntry (e : ZipEntry) : List Nat :=
  0x50 :: 0x4B :: 0x03 :: 0x04 ::
  0 :: 0 :: 0 :: 0 ::
  (e.method % 256) :: (e.method / 256) ::
  0 :: 0 :: 0 :: 0 :: 0 :: 0 :: 0 :: 0 ::
  (e.content.length % 256) :: (e.content.length / 256 % 256) ::
  (e.content.length / 65536 % 256) :: (e.content.length / 16777216) ::
  0 :: 0 :: 0 :: 0 ::
  ((encodeName e.name).length % 256) :: ((encodeName e.name).length / 256) ::
  (e.extra.length % 256) :: (e.extra.length / 256) ::
  (encodeName e.name ++ e.extra ++ e.content)

def buildZip (es : List ZipEntry) : List Nat := (es.map encodeEntry).flatten

/-! ### Claim C8: corrupt signature gives an empty map, no exception -/

/-- C8: when the buffer is shorter than five bytes, or its first four
bytes are not the little-endian local-file-header signature
`0x04034B50`, `parseZip` returns `.ok []` — an empty file map, and in
particular no exception. -/
theorem parseZip_bad_signature (deflate : List Nat → List Nat)
    (d : List Nat)
    (h : d.length < 5 ∨ readU32 d 0 ≠ some 0x04034b50) :
    parseZip deflate d = .ok [] := by
  unfold parseZip
  cases hf : d.length with
  | zero => rfl
  | succ n =>
    simp only [parseZipLoop]
    by_cases hg : 0 < d.length - 4
    · rw [if_pos hg]
      have hlen5 : 5 ≤ d.length := by omega
      obtain ⟨b0, b1, b2, b3, rest, hd⟩ :
          ∃ b0 b1 b2 b3 rest, d = b0 :: b1 :: b2 :: b3 :: rest := by
        match d, hlen5 with
        | b0 :: b1 :: b2 :: b3 :: rest, _ => exact ⟨b0, b1, b2, b3, rest, rfl⟩
      have hs : readU32 d 0 = some (b0 + 256 * (b1 + 256 * (b2 + 256 * b3))) := by
        rw [hd]; rfl
      rw [hs]
      have hneq : b0 + 256 * (b1 + 256 * (b2 + 256 * b3)) ≠ 0x04034b50 := by
        rcases h with h | h
        · omega
        · intro hc; rw [hs, hc] at h; exact h rfl
      simp [hneq]
    · rw [if_neg hg]

/-- Witness for `parseZip_bad_signature`: a five-byte zero buffer. -/
theorem parseZip_bad_signature_witness :
    parseZip (fun bs => bs) [0, 0, 0, 0, 0] = .ok [] := by
  exact parseZip_bad_signature (fun bs => bs) [0, 0, 0, 0, 0]
    (Or.inr (by decide))

/-! ### Claim C10: duplicate normalized keys — last write wins -/

lemma mapSet_lookup_self (m : FileMap) (k : String) (v : List Nat) :
    mapLookup (mapSet m k v) k = some v := by
  induction m with
  | nil => simp [mapSet, mapLookup, List.lookup]
  | cons e rest ih =>
    by_cases he : e.1 = k
    · simp [mapSet, he, mapLookup, List.lookup]
    · simp only [mapSet, he, if_false]
      simp only [mapLookup, List.lookup] at ih ⊢
      have hke : (k == e.1) = false := beq_eq_false_iff_ne.mpr (Ne.symm he)
      rw [hke]
      exact ih

lemma mapSet_length (m : FileMap) (k : String) (v : List Nat) :
    (mapSet m k v).length =
      if mapContains m k then m.length else m.length + 1 := by
  induction m with
  | nil => simp [mapSet, mapContains]
  | cons e rest ih =>
    by_cases he : e.1 = k
    · simp [mapSet, he, mapContains]
    · simp only [mapSet, he, if_false, mapContains, List.any_cons]
      have : (e.1 == k) = false := by simpa using he
      simp only [this, Bool.false_or]
      simp only [mapContains] at ih
      by_cases hc : rest.any (fun e => e.1 == k) = true <;>
        simp [hc, List.length_cons, ih]

/-- C10: `Map.set` overwrites: the value stored under a key is the last
one written, and re-setting an existing key does not grow the map;
concretely, an archive whose two stored entries `a/x` and `b/x` both
normalize to the key `x` parses to a one-entry map holding the second
entry's bytes. -/
theorem parseZip_duplicate_keys_last_wins :
    (∀ (m : FileMap) (k : String) (v : List Nat),
      mapLookup (mapSet m k v) k = some v ∧
      (mapSet m k v).length =
        (if mapContains m k then m.length else m.length + 1)) ∧
    (∀ deflate : List Nat → List Nat,
      parseZip deflate
        (buildZip [⟨"a/x", 0, [1], []⟩, ⟨"b/x", 0, [2], []⟩]) =
        .ok [("x", [2])]) := by
  constructor
  · intro m k v
    exact ⟨mapSet_lookup_self m k v, mapSet_length m k v⟩
  · intro deflate
    rfl

/-! ### Claim C7: well-formed archives parse to exactly N stripped entries -/

lemma drop_append_len {α : Type} (pre l : List α) (k : Nat) :
    (pre ++ l).drop (pre.length + k) = l.drop k := by
  rw [← List.drop_drop, List.drop_left]

lemma readU16_shift (pre l : List Nat) (k : Nat) :
    readU16 (pre ++ l) (pre.length + k) = readU16 l k := by
  unfold readU16; rw [drop_append_len]

lemma readU32_shift (pre l : List Nat) (k : Nat) :
    readU32 (pre ++ l) (pre.length + k) = readU32 l k := by
  unfold readU32; rw [drop_append_len]

lemma readU32_zero_append (pre l : List Nat) :
    readU32 (pre ++ l) pre.length = readU32 l 0 := by
  unfold readU32; rw [List.drop_left, List.drop_zero]

lemma jsSlice_shift (pre l : List Nat) (a b : Nat) :
    jsSlice (pre ++ l) (pre.length + a) (pre.length + b) = jsSlice l a b := by
  unfold jsSlice
  rw [drop_append_len]
  congr 1
  omega

lemma encodeEntry_length (e : ZipEntry) :
    (encodeEntry e).length =
      30 + (encodeName e.name).length + e.extra.length + e.content.length := by
  simp [encodeEntry]
  omega

lemma readU32_encodeEntry_sig (e : ZipEntry) (r : List Nat) :
    readU32 (encodeEntry e ++ r) 0 = some 0x04034b50 := rfl

lemma readU16_encodeEntry_method (e : ZipEntry) (r : List Nat) :
    readU16 (encodeEntry e ++ r) 8 = some e.method := by
  have h : readU16 (encodeEntry e ++ r) 8
      = some (e.method % 256 + 256 * (e.method / 256)) := rfl
  rw [h, Nat.mod_add_div]

lemma readU32_encodeEntry_size (e : ZipEntry) (r : List Nat) :
    readU32 (encodeEntry e ++ r) 18 = some e.content.length := by
  have h : readU32 (encodeEntry e ++ r) 18
      = some (e.content.length % 256 + 256 * (e.content.length / 256 % 256
          + 256 * (e.content.length / 65536 % 256
          + 256 * (e.content.length / 16777216)))) := rfl
  rw [h]
  congr 1
  omega

lemma readU16_encodeEntry_nameLen (e : ZipEntry) (r : List Nat) :
    readU16 (encodeEntry e ++ r) 26 = some (encodeName e.name).length := by
  have h : readU16 (encodeEntry e ++ r) 26
      = some ((encodeName e.name).length % 256
          + 256 * ((encodeName e.name).length / 256)) := rfl
  rw [h, Nat.mod_add_div]

lemma readU16_encodeEntry_extraLen (e : ZipEntry) (r : List Nat) :
    readU16 (encodeEntry e ++ r) 28 = some e.extra.length := by
  have h : readU16 (encodeEntry e ++ r) 28
      = some (e.extra.length % 256 + 256 * (e.extra.length / 256)) := rfl
  rw [h, Nat.mod_add_div]

lemma drop30_encodeEntry (e : ZipEntry) (r : List Nat) :
    (encodeEntry e ++ r).drop 30
      = encodeName e.name ++ (e.extra ++ (e.content ++ r)) := by
  have h : (encodeEntry e ++ r).drop 30
      = (encodeName e.name ++ e.extra ++ e.content) ++ r := rfl
  rw [h]
  simp [List.append_assoc]

lemma jsSlice_encodeEntry_name (e : ZipEntry) (r : List Nat) :
    jsSlice (encodeEntry e ++ r) 30 (30 + (encodeName e.name).length)
      = encodeName e.name := by
  unfold jsSlice
  rw [drop30_encodeEntry, Nat.add_sub_cancel_left]
  have h2 := List.take_left (encodeName e.name) (e.extra ++ (e.content ++ r))
  exact h2

lemma jsSlice_encodeEntry_content (e : ZipEntry) (r : List Nat) :
    jsSlice (encodeEntry e ++ r)
      (30 + (encodeName e.name).length + e.extra.length)
      (30 + (encodeName e.name).length + e.extra.length + e.content.length)
      = e.content := by
  unfold jsSlice
  have h1 : (encodeEntry e ++ r).drop
      (30 + (encodeName e.name).length + e.extra.length) = e.content ++ r := by
    rw [show 30 + (encodeName e.name).length + e.extra.length
        = 30 + ((encodeName e.name).length + e.extra.length) from by omega]
    rw [← List.drop_drop, drop30_encodeEntry]
    rw [drop_append_len, List.drop_left]
  rw [h1]
  rw [show 30 + (encodeName e.name).length + e.extra.length + e.content.length
      - (30 + (encodeName e.name).length + e.extra.length)
      = e.content.length from by omega]
  exact List.take_left _ _

lemma decodeBytes_encodeName (s : String) : decodeBytes (encodeName s) = s := by
  unfold decodeBytes encodeName
  rw [List.map_map]
  have h : (Char.ofNat ∘ Char.toNat) = id := funext Char.ofNat_toNat
  rw [h, List.map_id]


lemma parseZipLoop_step (deflate : List Nat → List Nat) (d : List Nat)
    (f off : Nat) (acc : FileMap) (m sz nl xl : Nat)
    (hguard : off < d.length - 4)
    (hsig : readU32 d off = some 0x04034b50)
    (hm : readU16 d (off + 8) = some m)
    (hsz : readU32 d (off + 18) = some sz)
    (hnl : readU16 d (off + 26) = some nl)
    (hxl : readU16 d (off + 28) = some xl) :
    parseZipLoop deflate d (f + 1) off acc =
      parseZipLoop deflate d f (off + 30 + nl + xl + sz)
        (zipStoreEntry deflate acc
          (decodeBytes (jsSlice d (off + 30) (off + 30 + nl))) m
          (jsSlice d (off + 30 + nl + xl) (off + 30 + nl + xl + sz))) := by
  simp only [parseZipLoop]
  rw [if_pos hguard, hsig, hm, hsz, hnl, hxl]
  rfl

lemma dropThroughSlash_append (top : List Char) (rest : List Char)
    (h : ∀ c ∈ top, c ≠ '/') :
    dropThroughSlash (top ++ '/' :: rest) = some rest := by
  induction top with
  | nil => simp [dropThroughSlash]
  | cons c cs ih =>
    have hc : c ≠ '/' := h c (by simp)
    simp only [List.cons_append, dropThroughSlash, if_neg hc]
    exact ih (fun x hx => h x (by simp [hx]))

lemma stripTopSegment_concat (top r : String) (h1 : top ≠ "")
    (h2 : ∀ c ∈ top.data, c ≠ '/') :
    stripTopSegment (top ++ "/" ++ r) = r := by
  obtain ⟨tl⟩ := top
  cases tl with
  | nil => exact absurd rfl h1
  | cons c cs =>
    have hdata : ((⟨c :: cs⟩ : String) ++ "/" ++ r).data
        = c :: (cs ++ '/' :: r.data) := by
      simp [String.data_append]
    have hc : c ≠ '/' := h2 c (by simp)
    have hd : dropThroughSlash (c :: (cs ++ '/' :: r.data)) = some r.data := by
      have h3 := dropThroughSlash_append (c :: cs) r.data (by simpa using h2)
      simpa using h3
    unfold stripTopSegment
    rw [hdata]
    show (if c = '/' then (⟨c :: cs⟩ : String) ++ "/" ++ r
      else
        match dropThroughSlash (c :: (cs ++ '/' :: r.data)) with
        | some rest => String.mk rest
        | none => (⟨c :: cs⟩ : String) ++ "/" ++ r) = r
    rw [if_neg hc, hd]

lemma mapContains_append (m₁ m₂ : FileMap) (k : String) :
    mapContains (m₁ ++ m₂) k = (mapContains m₁ k || mapContains m₂ k) := by
  simp [mapContains, List.any_append]

lemma mapSet_not_contains (m : FileMap) (k : String) (v : List Nat)
    (h : mapContains m k = false) : mapSet m k v = m ++ [(k, v)] := by
  induction m with
  | nil => rfl
  | cons e rest ih =>
    simp only [mapContains, List.any_cons, Bool.or_eq_false_iff] at h
    have he : ¬e.1 = k := by simpa using h.1
    simp only [mapSet, if_neg he, List.cons_append]
    rw [ih (by simpa [mapContains] using h.2)]

lemma foldl_zipStore_wellformed (deflate : List Nat → List Nat) :
    ∀ (es : List ZipEntry) (acc : FileMap),
    (∀ e ∈ es, jsEndsWith e.name "/" = false) →
    (∀ e ∈ es, stripTopSegment e.name ≠ "") →
    (∀ e ∈ es, mapContains acc (stripTopSegment e.name) = false) →
    (es.map fun e => stripTopSegment e.name).Nodup →
    es.foldl (fun a e => zipStoreEntry deflate a e.name e.method e.content) acc
      = acc ++ es.map (fun e =>
          (stripTopSegment e.name,
           if e.method = 8 then deflate e.content
           else if e.method = 0 then e.content else [])) := by
  intro es
  induction es with
  | nil => intro acc _ _ _ _; simp
  | cons e rest ih =>
    intro acc hdir hne hfresh hnodup
    simp only [List.map_cons, List.nodup_cons] at hnodup
    obtain ⟨hnotin, hrest⟩ := hnodup
    simp only [List.foldl_cons, List.map_cons]
    have hstep : zipStoreEntry deflate acc e.name e.method e.content
        = acc ++ [(stripTopSegment e.name,
            if e.method = 8 then deflate e.content
            else if e.method = 0 then e.content else [])] := by
      unfold zipStoreEntry
      rw [hdir e (by simp)]
      simp only [Bool.false_eq_true, if_false]
      rw [if_neg (hne e (by simp))]
      exact mapSet_not_contains _ _ _ (hfresh e (by simp))
    rw [hstep]
    have hfresh' : ∀ x ∈ rest,
        mapContains (acc ++ [(stripTopSegment e.name,
          if e.method = 8 then deflate e.content
          else if e.method = 0 then e.content else [])])
          (stripTopSegment x.name) = false := by
      intro x hx
      have h1 := hfresh x (by simp [hx])
      have h2 : (stripTopSegment e.name == stripTopSegment x.name) = false := by
        refine beq_eq_false_iff_ne.mpr ?_
        intro hcontra
        exact hnotin (hcontra ▸ List.mem_map_of_mem _ hx)
      rw [mapContains_append, h1]
      simp only [Bool.false_or]
      simp [mapContains, h2]
    rw [ih _ (fun x hx => hdir x (by simp [hx]))
      (fun x hx => hne x (by simp [hx])) hfresh' hrest]
    simp

lemma buildZip_length_ge (es : List ZipEntry) :
    es.length ≤ (buildZip es).length := by
  induction es with
  | nil => simp [buildZip]
  | cons e rest ih =>
    have h := encodeEntry_length e
    simp only [buildZip, List.map_cons, List.flatten_cons, List.length_append,
      List.length_cons]
    simp only [buildZip] at ih
    omega

theorem parseZipLoop_append (deflate : List Nat → List Nat) :
    ∀ (es : List ZipEntry) (pre : List Nat) (acc : FileMap) (fuel : Nat),
      es.length ≤ fuel →
      parseZipLoop deflate (pre ++ buildZip es) fuel pre.length acc =
        .ok (es.foldl
          (fun a e => zipStoreEntry deflate a e.name e.method e.content) acc) := by
  intro es
  induction es with
  | nil =>
    intro pre acc fuel _
    simp only [buildZip, List.map_nil, List.flatten_nil, List.append_nil]
    cases fuel with
    | zero => rfl
    | succ f =>
      simp only [parseZipLoop]
      rw [if_neg (by omega)]
      rfl
  | cons e rest ih =>
    intro pre acc fuel hfuel
    simp only [List.length_cons] at hfuel
    obtain ⟨f, rfl⟩ : ∃ f, fuel = f + 1 := ⟨fuel - 1, by omega⟩
    have hbz : buildZip (e :: rest) = encodeEntry e ++ buildZip rest := by
      simp [buildZip]
    rw [hbz]
    have h30 := encodeEntry_length e
    have hlen : pre.length
        < (pre ++ (encodeEntry e ++ buildZip rest)).length - 4 := by
      simp only [List.length_append]
      omega
    have hsig : readU32 (pre ++ (encodeEntry e ++ buildZip rest)) pre.length
        = some 0x04034b50 := by
      rw [readU32_zero_append]
      exact readU32_encodeEntry_sig e _
    have hm : readU16 (pre ++ (encodeEntry e ++ buildZip rest)) (pre.length + 8)
        = some e.method := by
      rw [readU16_shift]
      exact readU16_encodeEntry_method e _
    have hsz : readU32 (pre ++ (encodeEntry e ++ buildZip rest)) (pre.length + 18)
        = some e.content.length := by
      rw [readU32_shift]
      exact readU32_encodeEntry_size e _
    have hnl : readU16 (pre ++ (encodeEntry e ++ buildZip rest)) (pre.length + 26)
        = some (encodeName e.name).length := by
      rw [readU16_shift]
      exact readU16_encodeEntry_nameLen e _
    have hxl : readU16 (pre ++ (encodeEntry e ++ buildZip rest)) (pre.length + 28)
        = some e.extra.length := by
      rw [readU16_shift]
      exact readU16_encodeEntry_extraLen e _
    rw [parseZipLoop_step deflate _ f pre.length acc e.method e.content.length
      (encodeName e.name).length e.extra.length hlen hsig hm hsz hnl hxl]
    have hname : jsSlice (pre ++ (encodeEntry e ++ buildZip rest))
        (pre.length + 30) (pre.length + 30 + (encodeName e.name).length)
        = encodeName e.name := by
      rw [show pre.length + 30 + (encodeName e.name).length
          = pre.length + (30 + (encodeName e.name).length) from by omega]
      rw [jsSlice_shift]
      exact jsSlice_encodeEntry_name e _
    have hcont : jsSlice (pre ++ (encodeEntry e ++ buildZip rest))
        (pre.length + 30 + (encodeName e.name).length + e.extra.length)
        (pre.length + 30 + (encodeName e.name).length + e.extra.length
          + e.content.length)
        = e.content := by
      rw [show pre.length + 30 + (encodeName e.name).length + e.extra.length
            + e.content.length
          = pre.length + (30 + (encodeName e.name).length + e.extra.length
            + e.content.length) from by omega,
        show pre.length + 30 + (encodeName e.name).length + e.extra.length
          = pre.length + (30 + (encodeName e.name).length + e.extra.length)
          from by omega]
      rw [jsSlice_shift]
      exact jsSlice_encodeEntry_content e _
    rw [hname, hcont, decodeBytes_encodeName]
    have hoff : pre.length + 30 + (encodeName e.name).length + e.extra.length
        + e.content.length = (pre ++ encodeEntry e).length := by
      simp only [List.length_append, encodeEntry_length]
      omega
    rw [hoff]
    rw [show pre ++ (encodeEntry e ++ buildZip rest)
        = (pre ++ encodeEntry e) ++ buildZip rest from by
      rw [List.append_assoc]]
    rw [ih (pre ++ encodeEntry e) _ f (by omega)]
    rfl

/-- C7: a well-formed ZIP stream of `N` stored-or-deflated,
non-directory local entries whose names all share the same top-level
path segment parses to a file map of exactly `N` entries whose keys are
the entry names with that top-level segment removed (the names must be
distinct after stripping — otherwise `Map.set` collapses entries, see
the last-write-wins claim). -/
theorem parseZip_wellformed_archive (deflate : List Nat → List Nat)
    (es : List ZipEntry) (top : String)
    (hmethod : ∀ e ∈ es, e.method = 0 ∨ e.method = 8)
    (hnotdir : ∀ e ∈ es, jsEndsWith e.name "/" = false)
    (htopne : top ≠ "") (htopslash : ∀ c ∈ top.data, c ≠ '/')
    (hsplit : ∀ e ∈ es, ∃ r : String, e.name = top ++ "/" ++ r ∧ r ≠ "")
    (hdistinct : (es.map fun e => stripTopSegment e.name).Nodup) :
    parseZip deflate (buildZip es)
      = .ok (es.map fun e =>
          (stripTopSegment e.name,
            if e.method = 8 then deflate e.content else e.content)) ∧
    (es.map fun e =>
        (stripTopSegment e.name,
          if e.method = 8 then deflate e.content else e.content)).length
      = es.length ∧
    (es.map fun e =>
        (stripTopSegment e.name,
          if e.method = 8 then deflate e.content else e.content)).map Prod.fst
      = es.map fun e => stripTopSegment e.name := by
  have hne : ∀ e ∈ es, stripTopSegment e.name ≠ "" := by
    intro e he
    obtain ⟨r, hr, hrne⟩ := hsplit e he
    rw [hr, stripTopSegment_concat top r htopne htopslash]
    exact hrne
  have hmain := parseZipLoop_append deflate es [] []
    (buildZip es).length (buildZip_length_ge es)
  simp only [List.nil_append, List.length_nil] at hmain
  unfold parseZip
  rw [hmain]
  rw [foldl_zipStore_wellformed deflate es [] hnotdir hne
    (by intro x hx; rfl) hdistinct]
  simp only [List.nil_append]
  refine ⟨?_, by simp, by simp⟩
  congr 1
  refine List.map_congr_left ?_
  intro e he
  rcases hmethod e he with h0 | h8
  · simp [h0]
  · simp [h8]

/-- Witness for `parseZip_wellformed_archive`: a two-entry stored
archive under a `proj/` folder. -/
theorem parseZip_wellformed_archive_witness :
    parseZip (fun bs => bs)
        (buildZip [⟨"proj/a.txt", 0, [1, 2], []⟩, ⟨"proj/b.txt", 0, [3], []⟩])
      = .ok [("a.txt", [1, 2]), ("b.txt", [3])] := by
  have h := parseZip_wellformed_archive (fun bs => bs)
      [⟨"proj/a.txt", 0, [1, 2], []⟩, ⟨"proj/b.txt", 0, [3], []⟩] "proj"
      (by intro e he; simp at he; rcases he with rfl | rfl <;> simp)
      (by intro e he; simp at he; rcases he with rfl | rfl <;> decide)
      (by decide) (by decide)
      (by
        intro e he
        simp at he
        rcases he with rfl | rfl
        · exact ⟨"a.txt", by decide, by decide⟩
        · exact ⟨"b.txt", by decide, by decide⟩)
      (by decide)
  rw [h.1]
  rfl

/-! ## The module bundler (claims C5 and C6)

Source: `bundleFiles` of the self-contained bundler variant, together
with its import-statement regex. -/

def isWordChar (c : Char) : Bool := c.isAlphanum || c == '_'

def isSpaceChar (c : Char) : Bool :=
  c == ' ' || c == '\t' || c == '\n' || c == '\r'

def squoteChar : Char := Char.ofNat 39

def dquoteChar : Char := Char.ofNat 34

def eatStr (pat cs : List Char) : Option (List Char) :=
  if pat.isPrefixOf cs then some (cs.drop pat.length) else none

def eatWs1 : List Char → Option (List Char)
  | c :: rest => if isSpaceChar c then some (rest.dropWhile isSpaceChar) else none
  | [] => none

def eatWs (cs : List Char) : List Char := cs.dropWhile isSpaceChar

/-- `(\{[^}]+\})`: a braced import clause. -/
def eatBraceGroup : List Char → Option (List Char)
  | c :: rest =>
    if c = openBraceChar then
      let body := rest.takeWhile (fun x => x ≠ closeBraceChar)
      match rest.drop body.length with
      | c2 :: r2 => if c2 = closeBraceChar ∧ body ≠ [] then some r2 else none
      | [] => none
    else none
  | [] => none

def eatWord : List Char → Option (List Char)
  | c :: rest =>
    if isWordChar c then some (rest.dropWhile isWordChar) else none
  | [] => none

/-- `(\*\s+as\s+\w+)`: a namespace import clause. -/
def eatStarAs : List Char → Option (List Char)
  | c :: rest =>
    if c = '*' then
      match eatWs1 rest with
      | some r1 =>
        match eatStr "as".data r1 with
        | some r2 =>
          match eatWs1 r2 with
          | some r3 => eatWord r3
          | none => none
        | none => none
      | none => none
    else none
  | [] => none

/-- `\s*,?\s*` between the two optional clauses. -/
def eatSep (cs : List Char) : List Char :=
  match eatWs cs with
  | c :: rest => if c = ',' then eatWs rest else c :: rest
  | [] => []

/-- `\s*from\s+['"]([^'"]+)['"]`: the tail of the import statement;
returns the captured specifier and the rest of the input. -/
def eatFromClause (cs : List Char) : Option (String × List Char) :=
  match eatStr "from".data (eatWs cs) with
  | some r1 =>
    match eatWs1 r1 with
    | some r2 =>
      match r2 with
      | q :: rest =>
        if q = dquoteChar ∨ q = squoteChar then
          let spec := rest.takeWhile (fun c => c ≠ dquoteChar ∧ c ≠ squoteChar)
          if spec ≠ [] then
            match rest.drop spec.length with
            | q2 :: r3 =>
              if q2 = dquoteChar ∨ q2 = squoteChar then some (String.mk spec, r3)
              else none
            | [] => none
          else none
        else none
      | [] => none
    | none => none
  | none => none

/-- The possible remainders after an optional clause, in the regex's
preference order (each present alternative, then the clause left
unmatched). -/
def clauseCandidates (withStar : Bool) (cs : List Char) : List (List Char) :=
  (match eatBraceGroup cs with | some r => [r] | none => [])
  ++ (if withStar then
        (match eatStarAs cs with | some r => [r] | none => [])
      else [])
  ++ (match eatWord cs with | some r => [r] | none => [])
  ++ [cs]

/-- Match the import-statement regex

```
/import\s+(?:(\{[^}]+\})|(\*\s+as\s+\w+)|(\w+))?\s*,?\s*(?:(\{[^}]+\})|(\w+))?\s*from\s+['"]([^'"]+)['"]/
```

at the start of `cs`; on success, the captured specifier and the rest of
the input after the match. (Maximal munch within word/brace tokens; the
optional clauses backtrack in the regex's preference order.) -/
def matchImportAt (cs : List Char) : Option (String × List Char) :=
  match eatStr "import".data cs with
  | some r0 =>
    match eatWs1 r0 with
    | some r1 =>
      (clauseCandidates true r1).findSome? fun aRest =>
        (clauseCandidates false (eatSep aRest)).findSome? fun bRest =>
          eatFromClause bRest
    | none => none
  | none => none

/-- One match of the global import regex: the text before the match, the
matched text itself, and the captured specifier. -/
structure ImportMatch where
  pre : String
  text : String
  spec : String
deriving DecidableEq

def scanImportsAux : Nat → List Char → List Char → List ImportMatch × String
  | 0, acc, cs => ([], String.mk (acc.reverse ++ cs))
  | Nat.succ fuel, acc, cs =>
    match cs with
    | [] => ([], String.mk acc.reverse)
    | c :: rest =>
      match matchImportAt cs with
      | some (spec, after) =>
        let res := scanImportsAux fuel [] after
        (⟨String.mk acc.reverse,
          String.mk (cs.take (cs.length - after.length)), spec⟩ :: res.1,
         res.2)
      | none => scanImportsAux fuel (c :: acc) rest

/-- All matches of the global import regex over the code, with the
interleaved non-matching text (the scan advances one character on
failure and past each match on success, like `String.replace`). -/
def scanImports (code : String) : List ImportMatch × String :=
  scanImportsAux code.data.length [] code.data

def replaceFirstAux (target repl : List Char) :
    Nat → List Char → List Char → Option (List Char)
  | 0, _, _ => none
  | Nat.succ fuel, acc, cs =>
    if target.isPrefixOf cs then
      some (acc.reverse ++ repl ++ cs.drop target.length)
    else
      match cs with
      | [] => none
      | c :: rest => replaceFirstAux target repl fuel (c :: acc) rest

/-- `s.replace(target, repl)` with a plain-string pattern: replace the
first occurrence only. -/
def jsReplaceFirst (s target repl : String) : String :=
  match replaceFirstAux target.data repl.data (s.data.length + 1) [] s.data with
  | some r => String.mk r
  | none => s

/-- `Set.add`: dedup, insertion order. -/
def setAdd (l : List String) (s : String) : List String :=
  if l.contains s then l else l ++ [s]

/-- The replacement text for one matched import statement: external
imports keep the statement with the specifier rewritten to the resolved
URL; local imports are replaced with a marker comment. -/
def rewriteMatch (resolveFn : String → ResolveResult) (m : ImportMatch) :
    String :=
  if (resolveFn m.spec).isExternal then
    jsReplaceFirst m.text m.spec (resolveFn m.spec).resolved
  else "// bundled: " ++ m.spec

/-- The bundler's state: the visited set, the emitted `(path, text)`
chunks in emission order (each rendered as `// === path ===\ntext`), and
the collected external URLs. -/
structure BState where
  visited : List String
  bundled : List (String × String)
  externals : List String
deriving DecidableEq

/-- The body of one `processFile` call, parametric in the recursive
call `rec` (tied by fuel in `processFile` below): skip visited or
missing/empty files; otherwise mark visited, walk the matched import
statements in order (externals are collected, locals recursively
processed), and append the rewritten, transformed chunk. It is
parametric in the import-statement scanner `split` (instantiated with
`scanImports`) and in the type-stripping `transformCode` (the claims
hold for every transform). -/
def processFileGo (split : String → List ImportMatch × String)
    (transform : String → String → String)
    (sourceFiles : List (String × String)) (monorepoInfo : MonorepoInfo)
    (packageJson : Option PackageJson) (allDeps : List (String × String))
    (rec : String → BState → BState) (filePath : String) (st : BState) :
    BState :=
  if st.visited.contains filePath then st
  else
    match truthyLookup sourceFiles filePath with
    | none => st
    | some code =>
      let st2 := (split code).1.foldl (fun s m =>
        if (resolveImport m.spec filePath sourceFiles monorepoInfo
            packageJson allDeps).isExternal then
          ⟨s.visited, s.bundled,
            setAdd s.externals
              (resolveImport m.spec filePath sourceFiles monorepoInfo
                packageJson allDeps).resolved⟩
        else
          rec (resolveImport m.spec filePath sourceFiles monorepoInfo
            packageJson allDeps).resolved s)
        ⟨filePath :: st.visited, st.bundled, st.externals⟩
      ⟨st2.visited,
       st2.bundled ++
         [(filePath,
           transform
             (String.join ((split code).1.map fun m =>
               m.pre ++ rewriteMatch
                 (fun spec => resolveImport spec filePath sourceFiles
                   monorepoInfo packageJson allDeps) m)
               ++ (split code).2)
             filePath)],
       st2.externals⟩

/-- `processFile` of `bundleFiles`, with explicit fuel (the JS recursion
is bounded by the visited set; the fuel-irrelevance theorem shows
`sourceFiles.length + 1` suffices). -/
def processFile (split : String → List ImportMatch × String)
    (transform : String → String → String)
    (sourceFiles : List (String × String)) (monorepoInfo : MonorepoInfo)
    (packageJson : Option PackageJson) (allDeps : List (String × String)) :
    Nat → String → BState → BState
  | 0, _, st => st
  | Nat.succ fuel, filePath, st =>
    processFileGo split transform sourceFiles monorepoInfo packageJson allDeps
      (processFile split transform sourceFiles monorepoInfo packageJson
        allDeps fuel)
      filePath st

/-- `bundleFiles`' traversal from the entry point on empty state, at the
justified fuel. -/
def bundleRun (split : String → List ImportMatch × String)
    (transform : String → String → String)
    (sourceFiles : List (String × String)) (monorepoInfo : MonorepoInfo)
    (packageJson : Option PackageJson) (allDeps : List (String × String))
    (entryPoint : String) : BState :=
  processFile split transform sourceFiles monorepoInfo packageJson allDeps
    (sourceFiles.length + 1) entryPoint ⟨[], [], []⟩


/-- The per-traversal invariant relating a starting state to any state
reachable from it: bundled chunks are append-only, every newly emitted
path was unvisited at the start and visited at the end, the new paths
are pairwise distinct, and the visited set only grows. -/
def BundleRel (s t : BState) : Prop :=
  (∃ delta : List (String × String),
    t.bundled = s.bundled ++ delta ∧
    (∀ q ∈ delta.map Prod.fst, q ∉ s.visited ∧ q ∈ t.visited) ∧
    (delta.map Prod.fst).Nodup) ∧
  s.visited ⊆ t.visited

lemma bundleRel_refl (s : BState) : BundleRel s s :=
  ⟨⟨[], by simp, by simp, by simp⟩, fun _ h => h⟩

lemma bundleRel_trans {s t u : BState} (h1 : BundleRel s t)
    (h2 : BundleRel t u) : BundleRel s u := by
  obtain ⟨⟨d1, hb1, hq1, hn1⟩, hv1⟩ := h1
  obtain ⟨⟨d2, hb2, hq2, hn2⟩, hv2⟩ := h2
  refine ⟨⟨d1 ++ d2, by rw [hb2, hb1, List.append_assoc], ?_, ?_⟩,
    fun x hx => hv2 (hv1 hx)⟩
  · intro q hq
    rw [List.map_append, List.mem_append] at hq
    rcases hq with h | h
    · obtain ⟨ha, hb⟩ := hq1 q h
      exact ⟨ha, hv2 hb⟩
    · obtain ⟨ha, hb⟩ := hq2 q h
      exact ⟨fun hc => ha (hv1 hc), hb⟩
  · rw [List.map_append]
    refine List.Nodup.append hn1 hn2 ?_
    intro a ha hb
    exact (hq2 a hb).1 ((hq1 a ha).2)

lemma foldl_bundleRel {α : Type} (f : BState → α → BState)
    (hf : ∀ s a, BundleRel s (f s a)) :
    ∀ (l : List α) (s : BState), BundleRel s (l.foldl f s) := by
  intro l
  induction l with
  | nil => intro s; exact bundleRel_refl s
  | cons a rest ih =>
    intro s
    exact bundleRel_trans (hf s a) (ih (f s a))

lemma contains_false_not_mem {l : List String} {a : String}
    (h : l.contains a = false) : a ∉ l := by
  simpa using h

lemma bundleRel_push {s t : BState} {p tx : String}
    (hp : p ∉ s.visited)
    (h : BundleRel ⟨p :: s.visited, s.bundled, s.externals⟩ t) :
    BundleRel s ⟨t.visited, t.bundled ++ [(p, tx)], t.externals⟩ := by
  obtain ⟨⟨d, hb, hq, hn⟩, hv⟩ := h
  simp only at hb hq hv
  have hpv : p ∈ t.visited := hv (by simp)
  refine ⟨⟨d ++ [(p, tx)], ?_, ?_, ?_⟩, ?_⟩
  · simp only
    rw [hb, List.append_assoc]
  · intro q hq'
    rw [List.map_append, List.mem_append] at hq'
    rcases hq' with h | h
    · obtain ⟨ha, hbq⟩ := hq q h
      exact ⟨fun hc => ha (by simp [hc]), hbq⟩
    · simp at h
      subst h
      exact ⟨hp, hpv⟩
  · rw [List.map_append]
    refine List.Nodup.append hn (by simp) ?_
    intro a ha hb'
    simp at hb'
    subst hb'
    exact (hq a ha).1 (by simp)
  · intro x hx
    exact hv (by simp [hx])

lemma processFileGo_rel (split : String → List ImportMatch × String)
    (transform : String → String → String)
    (sourceFiles : List (String × String)) (monorepoInfo : MonorepoInfo)
    (packageJson : Option PackageJson) (allDeps : List (String × String))
    (rec : String → BState → BState)
    (hrec : ∀ (q : String) (s : BState), BundleRel s (rec q s))
    (p : String) (st : BState) :
    BundleRel st (processFileGo split transform sourceFiles monorepoInfo
      packageJson allDeps rec p st) := by
  by_cases hv : st.visited.contains p = true
  · simp only [processFileGo, hv, if_true]
    exact bundleRel_refl st
  · have hv' : st.visited.contains p = false := by simpa using hv
    cases hc : truthyLookup sourceFiles p with
    | none =>
      simp only [processFileGo, hv', Bool.false_eq_true, if_false, hc]
      exact bundleRel_refl st
    | some code =>
      simp only [processFileGo, hv', Bool.false_eq_true, if_false, hc]
      have hstep : ∀ (s : BState) (m : ImportMatch),
          BundleRel s
            (if (resolveImport m.spec p sourceFiles monorepoInfo
                packageJson allDeps).isExternal = true then
              (⟨s.visited, s.bundled,
                setAdd s.externals
                  (resolveImport m.spec p sourceFiles monorepoInfo
                    packageJson allDeps).resolved⟩ : BState)
            else
              rec (resolveImport m.spec p sourceFiles monorepoInfo
                packageJson allDeps).resolved s) := by
        intro s m
        by_cases he : (resolveImport m.spec p sourceFiles monorepoInfo
            packageJson allDeps).isExternal = true
        · rw [if_pos he]
          exact ⟨⟨[], by simp, by simp, by simp⟩, fun _ h => h⟩
        · rw [if_neg he]
          exact hrec _ s
      exact bundleRel_push (contains_false_not_mem hv')
        (foldl_bundleRel _ hstep (split code).1
          ⟨p :: st.visited, st.bundled, st.externals⟩)

lemma processFile_rel (split : String → List ImportMatch × String)
    (transform : String → String → String)
    (sourceFiles : List (String × String)) (monorepoInfo : MonorepoInfo)
    (packageJson : Option PackageJson) (allDeps : List (String × String)) :
    ∀ (fuel : Nat) (p : String) (st : BState),
      BundleRel st (processFile split transform sourceFiles monorepoInfo
        packageJson allDeps fuel p st) := by
  intro fuel
  induction fuel with
  | zero => intro p st; exact bundleRel_refl st
  | succ fuel ih =>
    intro p st
    exact processFileGo_rel split transform sourceFiles monorepoInfo
      packageJson allDeps _ (fun q s => ih q s) p st

/-- Bundled-path distinctness from the empty starting state. -/
lemma processFile_bundled_nodup (split : String → List ImportMatch × String)
    (transform : String → String → String)
    (sourceFiles : List (String × String)) (monorepoInfo : MonorepoInfo)
    (packageJson : Option PackageJson) (allDeps : List (String × String))
    (fuel : Nat) (entryPoint : String) :
    ((processFile split transform sourceFiles monorepoInfo packageJson allDeps
        fuel entryPoint ⟨[], [], []⟩).bundled.map Prod.fst).Nodup := by
  obtain ⟨⟨d, hb, _, hn⟩, _⟩ := processFile_rel split transform sourceFiles
    monorepoInfo packageJson allDeps fuel entryPoint ⟨[], [], []⟩
  rw [hb]
  simpa using hn


lemma truthyLookup_mem : ∀ {l : List (String × String)} {k v : String},
    truthyLookup l k = some v → (k, v) ∈ l ∧ v ≠ "" := by
  intro l
  induction l with
  | nil => intro k v h; simp [truthyLookup, List.lookup] at h
  | cons e rest ih =>
    intro k v h
    obtain ⟨k1, v1⟩ := e
    by_cases hk : k = k1
    · subst hk
      unfold truthyLookup at h
      simp only [List.lookup, beq_self_eq_true] at h
      by_cases hv1 : v1 = ""
      · simp [hv1] at h
      · rw [if_neg hv1] at h
        cases h
        exact ⟨by simp, hv1⟩
    · have hbk : (k == k1) = false := beq_eq_false_iff_ne.mpr hk
      unfold truthyLookup at h
      simp only [List.lookup, hbk] at h
      have h' : truthyLookup rest k = some v := by
        unfold truthyLookup
        exact h
      obtain ⟨hmem, hne⟩ := ih h'
      exact ⟨by simp [hmem], hne⟩

/-- A source-table entry that is truthy and not yet visited. -/
def truthyUnvisited (visited : List String) (kv : String × String) : Bool :=
  decide (kv.2 ≠ "") && !(visited.contains kv.1)

/-- The number of truthy source-table entries whose key is not yet
visited: the strictly decreasing measure of the traversal. -/
def unvisitedCount (sourceFiles : List (String × String))
    (visited : List String) : Nat :=
  (sourceFiles.filter (truthyUnvisited visited)).length

lemma truthyUnvisited_mono {v v' : List String} (h : v ⊆ v')
    (a : String × String) (ha : truthyUnvisited v' a = true) :
    truthyUnvisited v a = true := by
  simp only [truthyUnvisited, Bool.and_eq_true, decide_eq_true_eq,
    Bool.not_eq_true'] at ha ⊢
  refine ⟨ha.1, ?_⟩
  by_cases hm : a.1 ∈ v
  · exact absurd (h hm) (by simpa using ha.2)
  · simpa using hm

lemma unvisitedCount_mono (sourceFiles : List (String × String))
    {v v' : List String} (h : v ⊆ v') :
    unvisitedCount sourceFiles v' ≤ unvisitedCount sourceFiles v :=
  List.Sublist.length_le
    (List.monotone_filter_right _ (truthyUnvisited_mono h))

lemma truthyUnvisited_cons_mono (p : String) (v : List String)
    (a : String × String) (ha : truthyUnvisited (p :: v) a = true) :
    truthyUnvisited v a = true :=
  truthyUnvisited_mono (fun x hx => by simp [hx]) a ha

lemma unvisitedCount_strict (sourceFiles : List (String × String))
    (v : List String) (p code : String)
    (hl : truthyLookup sourceFiles p = some code)
    (hv : v.contains p = false) :
    unvisitedCount sourceFiles (p :: v) < unvisitedCount sourceFiles v := by
  obtain ⟨hmem, hne⟩ := truthyLookup_mem hl
  clear hl
  induction sourceFiles with
  | nil => simp at hmem
  | cons kv rest ih =>
    rcases List.mem_cons.mp hmem with hhead | htail
    · subst hhead
      have hcondv : truthyUnvisited v (p, code) = true := by
        unfold truthyUnvisited
        rw [hv]
        simp [hne]
      have hcondpv : ¬ truthyUnvisited (p :: v) (p, code) = true := by
        simp [truthyUnvisited]
      simp only [unvisitedCount, List.filter_cons]
      rw [if_pos hcondv, if_neg hcondpv]
      simp only [List.length_cons]
      have hm : (rest.filter (truthyUnvisited (p :: v))).length
          ≤ (rest.filter (truthyUnvisited v)).length :=
        List.Sublist.length_le
          (List.monotone_filter_right _ (truthyUnvisited_cons_mono p v))
      omega
    · have ihr := ih htail
      simp only [unvisitedCount] at ihr
      simp only [unvisitedCount, List.filter_cons]
      by_cases c1 : truthyUnvisited (p :: v) kv = true
      · have c2 := truthyUnvisited_cons_mono p v kv c1
        rw [if_pos c1, if_pos c2]
        simp only [List.length_cons]
        omega
      · rw [if_neg c1]
        by_cases c2 : truthyUnvisited v kv = true
        · rw [if_pos c2]
          simp only [List.length_cons]
          omega
        · rw [if_neg c2]
          exact ihr

lemma foldl_eq_of_inv {α : Type} (f g : BState → α → BState)
    (P : BState → Prop)
    (h : ∀ s a, P s → f s a = g s a ∧ P (f s a)) :
    ∀ (l : List α) (s : BState), P s → l.foldl f s = l.foldl g s := by
  intro l
  induction l with
  | nil => intro s _; rfl
  | cons a rest ih =>
    intro s hs
    obtain ⟨heq, hPs⟩ := h s a hs
    simp only [List.foldl_cons]
    calc rest.foldl f (f s a) = rest.foldl g (f s a) := ih (f s a) hPs
      _ = rest.foldl g (g s a) := by rw [heq]

lemma processFileGo_guard_stop (split : String → List ImportMatch × String)
    (transform : String → String → String)
    (sourceFiles : List (String × String)) (monorepoInfo : MonorepoInfo)
    (packageJson : Option PackageJson) (allDeps : List (String × String))
    (rec : String → BState → BState) (p : String) (st : BState)
    (h : st.visited.contains p = true ∨ truthyLookup sourceFiles p = none) :
    processFileGo split transform sourceFiles monorepoInfo packageJson allDeps
      rec p st = st := by
  rcases h with h | h
  · simp only [processFileGo]
    rw [if_pos h]
  · simp only [processFileGo]
    by_cases hv : st.visited.contains p = true
    · rw [if_pos hv]
    · rw [if_neg hv, h]

lemma processFile_fuel_succ (split : String → List ImportMatch × String)
    (transform : String → String → String)
    (sourceFiles : List (String × String)) (monorepoInfo : MonorepoInfo)
    (packageJson : Option PackageJson) (allDeps : List (String × String)) :
    ∀ (fuel : Nat) (p : String) (st : BState),
      unvisitedCount sourceFiles st.visited ≤ fuel →
      processFile split transform sourceFiles monorepoInfo packageJson allDeps
        (fuel + 1) p st =
      processFile split transform sourceFiles monorepoInfo packageJson allDeps
        fuel p st := by
  intro fuel
  induction fuel using Nat.strong_induction_on with
  | _ fuel ihs =>
    intro p st hU
    by_cases hv : st.visited.contains p = true
    · cases fuel with
      | zero =>
        exact processFileGo_guard_stop split transform sourceFiles monorepoInfo
          packageJson allDeps _ p st (Or.inl hv)
      | succ f =>
        rw [show processFile split transform sourceFiles monorepoInfo
            packageJson allDeps (f + 1 + 1) p st = st from
          processFileGo_guard_stop split transform sourceFiles monorepoInfo
            packageJson allDeps _ p st (Or.inl hv)]
        rw [show processFile split transform sourceFiles monorepoInfo
            packageJson allDeps (f + 1) p st = st from
          processFileGo_guard_stop split transform sourceFiles monorepoInfo
            packageJson allDeps _ p st (Or.inl hv)]
    · have hv' : st.visited.contains p = false := by simpa using hv
      cases hc : truthyLookup sourceFiles p with
      | none =>
        cases fuel with
        | zero =>
          exact processFileGo_guard_stop split transform sourceFiles
            monorepoInfo packageJson allDeps _ p st (Or.inr hc)
        | succ f =>
          rw [show processFile split transform sourceFiles monorepoInfo
              packageJson allDeps (f + 1 + 1) p st = st from
            processFileGo_guard_stop split transform sourceFiles monorepoInfo
              packageJson allDeps _ p st (Or.inr hc)]
          rw [show processFile split transform sourceFiles monorepoInfo
              packageJson allDeps (f + 1) p st = st from
            processFileGo_guard_stop split transform sourceFiles monorepoInfo
              packageJson allDeps _ p st (Or.inr hc)]
      | some code =>
        cases fuel with
        | zero =>
          exact absurd hU (by
            have := unvisitedCount_strict sourceFiles st.visited p code hc hv'
            omega)
        | succ f =>
          have hUst1 : unvisitedCount sourceFiles (p :: st.visited) ≤ f := by
            have h1 := unvisitedCount_strict sourceFiles st.visited p code hc hv'
            omega
          show processFileGo split transform sourceFiles monorepoInfo
              packageJson allDeps
              (processFile split transform sourceFiles monorepoInfo packageJson
                allDeps (f + 1)) p st
            = processFileGo split transform sourceFiles monorepoInfo
              packageJson allDeps
              (processFile split transform sourceFiles monorepoInfo packageJson
                allDeps f) p st
          simp only [processFileGo, hv', Bool.false_eq_true, if_false, hc]
          have hfold := foldl_eq_of_inv
            (fun (s : BState) (m : ImportMatch) =>
              if (resolveImport m.spec p sourceFiles monorepoInfo
                  packageJson allDeps).isExternal = true then
                (⟨s.visited, s.bundled,
                  setAdd s.externals
                    (resolveImport m.spec p sourceFiles monorepoInfo
                      packageJson allDeps).resolved⟩ : BState)
              else
                processFile split transform sourceFiles monorepoInfo
                  packageJson allDeps (f + 1)
                  (resolveImport m.spec p sourceFiles monorepoInfo
                    packageJson allDeps).resolved s)
            (fun (s : BState) (m : ImportMatch) =>
              if (resolveImport m.spec p sourceFiles monorepoInfo
                  packageJson allDeps).isExternal = true then
                (⟨s.visited, s.bundled,
                  setAdd s.externals
                    (resolveImport m.spec p sourceFiles monorepoInfo
                      packageJson allDeps).resolved⟩ : BState)
              else
                processFile split transform sourceFiles monorepoInfo
                  packageJson allDeps f
                  (resolveImport m.spec p sourceFiles monorepoInfo
                    packageJson allDeps).resolved s)
            (fun s => unvisitedCount sourceFiles s.visited ≤ f)
            (by
              intro s m hs
              simp only []
              by_cases he : (resolveImport m.spec p sourceFiles monorepoInfo
                  packageJson allDeps).isExternal = true
              · rw [if_pos he, if_pos he]
                exact ⟨rfl, hs⟩
              · rw [if_neg he, if_neg he]
                refine ⟨ihs f (by omega) _ s hs, ?_⟩
                have hsub := (processFile_rel split transform sourceFiles
                  monorepoInfo packageJson allDeps (f + 1)
                  (resolveImport m.spec p sourceFiles monorepoInfo
                    packageJson allDeps).resolved s).2
                exact le_trans (unvisitedCount_mono sourceFiles hsub) hs)
            (split code).1 ⟨p :: st.visited, st.bundled, st.externals⟩ hUst1
          rw [hfold]

/-! ### The final bundle assembly of `bundleFiles` -/

def stripVerAux : List Char → Option (List Char)
  | [] => none
  | c :: rest =>
    if c = '@' ∧ rest ≠ [] ∧ rest.all (fun x => x ≠ '/') then some []
    else
      match stripVerAux rest with
      | some kept => some (c :: kept)
      | none => none

/-- `url.replace(/@[^\/]+$/, "")`: drop a trailing `@version` segment
(the leftmost `@` whose remainder is non-empty and slash-free). -/
def stripVersionSuffix (s : String) : String :=
  match stripVerAux s.data with
  | some kept => String.mk kept
  | none => s

/-- `pkgName.replace(/[^a-zA-Z0-9]/g, "_")`. -/
def sanitizeIdent (s : String) : String :=
  String.mk (s.data.map fun c => if c.isAlphanum then c else '_')

/-- One line of the external-imports header. -/
def externalImportLine (url : String) : String :=
  "import * as "
    ++ sanitizeIdent (stripVersionSuffix (jsReplaceFirst url "https://esm.sh/" ""))
    ++ " from \"" ++ url ++ "\";"

/-- `bundleFiles`: the external-imports header followed by the bundled
chunks, each rendered under its `// === path ===` marker. -/
def bundleFiles (split : String → List ImportMatch × String)
    (transform : String → String → String)
    (sourceFiles : List (String × String)) (monorepoInfo : MonorepoInfo)
    (packageJson : Option PackageJson) (allDeps : List (String × String))
    (entryPoint : String) : String :=
  String.intercalate "\n"
    ((bundleRun split transform sourceFiles monorepoInfo packageJson allDeps
      entryPoint).externals.map externalImportLine)
  ++ "\n\n"
  ++ String.intercalate "\n\n"
    ((bundleRun split transform sourceFiles monorepoInfo packageJson allDeps
      entryPoint).bundled.map fun pc => "// === " ++ pc.1 ++ " ===\n" ++ pc.2)

/-! ### Claims C5 and C6 -/

/-- A diamond import graph: the entry imports `src/b` and `src/c`, and
both import the same local module `src/d` (via the `src/` alias branch
of `resolveImport`, which probes `src/d.tsx`). -/
def diamondSourceFiles : List (String × String) :=
  [("src/main.tsx",
    "import \x7b B \x7d from \"src/b\";\nimport \x7b C \x7d from \"src/c\";\nconst MAIN = 1;\n"),
   ("src/b.tsx", "import \x7b D \x7d from \"src/d\";\nconst B = 1;\n"),
   ("src/c.tsx", "import \x7b D \x7d from \"src/d\";\nconst C = 1;\n"),
   ("src/d.tsx", "const D = 1;\n")]

/-- C5: each reachable local module is emitted at most once — from the
empty state, the emitted chunk paths are duplicate-free for every
scanner, transform, source table and fuel — and on the concrete diamond
graph (entry imports `b` and `c`, both importing `d`) exactly one chunk
for `src/d.tsx` is emitted, for every transform. -/
theorem bundleFiles_emits_each_module_once :
    (∀ (split : String → List ImportMatch × String)
       (transform : String → String → String)
       (sourceFiles : List (String × String)) (monorepoInfo : MonorepoInfo)
       (packageJson : Option PackageJson) (allDeps : List (String × String))
       (fuel : Nat) (entryPoint p : String),
      ((processFile split transform sourceFiles monorepoInfo packageJson
          allDeps fuel entryPoint ⟨[], [], []⟩).bundled.map Prod.fst).count p
        ≤ 1) ∧
    (∀ transform : String → String → String,
      ((bundleRun scanImports transform diamondSourceFiles
          ⟨false, none, [], []⟩ none [] "src/main.tsx").bundled.map
            Prod.fst).count "src/d.tsx" = 1) := by
  constructor
  · intro split transform sourceFiles monorepoInfo packageJson allDeps fuel
      entryPoint p
    exact List.nodup_iff_count_le_one.mp
      (processFile_bundled_nodup split transform sourceFiles monorepoInfo
        packageJson allDeps fuel entryPoint) p
  · intro transform
    rfl

/-- C6: the traversal terminates on every finite source table — with
cyclic import graphs included — because a visited module is never
processed again: `sourceFiles.length + 1` fuel already computes the
fixed point, and any extra fuel leaves the result unchanged. -/
theorem bundleFiles_traversal_terminates
    (split : String → List ImportMatch × String)
    (transform : String → String → String)
    (sourceFiles : List (String × String)) (monorepoInfo : MonorepoInfo)
    (packageJson : Option PackageJson) (allDeps : List (String × String))
    (entryPoint : String) :
    ∀ k : Nat,
      processFile split transform sourceFiles monorepoInfo packageJson allDeps
        (sourceFiles.length + 1 + k) entryPoint ⟨[], [], []⟩
      = bundleRun split transform sourceFiles monorepoInfo packageJson allDeps
          entryPoint := by
  intro k
  induction k with
  | zero => rfl
  | succ k ih =>
    have hU : unvisitedCount sourceFiles ([] : List String)
        ≤ sourceFiles.length + 1 + k := by
      have h1 := List.length_filter_le
        (truthyUnvisited ([] : List String)) sourceFiles
      simp only [unvisitedCount]
      omega
    have h := processFile_fuel_succ split transform sourceFiles monorepoInfo
      packageJson allDeps (sourceFiles.length + 1 + k) entryPoint
      ⟨[], [], []⟩ hU
    rw [show sourceFiles.length + 1 + (k + 1)
        = sourceFiles.length + 1 + k + 1 from by omega]
    rw [h]
    exact ih


end BuildPipeline
